import Mathlib

/-!
Verification development for the snowball-rs compiler front end
(`src/frontend/parser.rs` and `src/ast/nodes.rs`): a shallow embedding of
the token cursor, the global-declaration dispatch loop with its
modifier-attribute accumulation, and the AST node wrappers, together with
theorems settling the specified behavioural claims.
-/

/-- Modelled from the spec: `ExternalLinkage` lives in `src/ast/attrs.rs`,
which is not part of the excerpt; the parser names exactly these three
linkage kinds (`C` / `Snowball` / `System`). -/
inductive ExternalLinkage where
  | C
  | Snowball
  | System
deriving DecidableEq, Repr

/-- Modelled from the spec: `AstAttrs` lives in `src/ast/attrs.rs`, not in
the excerpt; the parser constructs exactly these attribute kinds
(visibility, storage, inlining hint, external linkage, abstractness,
finality). -/
inductive AstAttrs where
  | Privacy (isPublic : Bool)
  | Static
  | Inline
  | External (linkage : ExternalLinkage)
  | Abstract
  | Final
deriving DecidableEq, Repr

/-- Modelled from the spec: `AttrHandler` (in `src/ast/attrs.rs`, not in the
excerpt) is the mutable attribute accumulator; the core only depends on an
accumulate-then-attach contract, so it is modelled as the sequence of
attributes added so far. -/
structure AttrHandler where
  attrs : List AstAttrs
deriving DecidableEq, Repr

def AttrHandler.new : AttrHandler := ⟨[]⟩

def AttrHandler.add_attr (h : AttrHandler) (a : AstAttrs) : AttrHandler :=
  ⟨h.attrs ++ [a]⟩

/-- Modelled from the spec: `TokenType` lives in `src/frontend/lexer/token.rs`,
which is not part of the excerpt. The variants are the ones the parser
matches on, plus a string-literal variant carrying its data and
representative literal and identifier variants standing for the remaining
token kinds the lexer can produce. -/
inductive TokenType where
  | EOF
  | Fn
  | Struct
  | Enum
  | Class
  | Const
  | Public
  | Private
  | Static
  | Inline
  | External
  | Abstract
  | Final
  | Interface
  | String (data : String)
  | Int (n : Int)
  | Ident (name : String)
deriving DecidableEq, Repr

/-- Modelled from the spec: `Token` (in `src/frontend/lexer/token.rs`, not in
the excerpt) carries a type tag, a textual value, and a source location;
`get_type`, `value` and `get_location` are its accessors. Locations are
abstracted to naturals. -/
structure Token where
  type : TokenType
  value : String
  location : Nat
deriving DecidableEq, Repr

/-- Modelled from the spec: the error kinds of `crate::reports::Error` used
by the parser (the reports module is not in the excerpt). -/
inductive Error where
  | UnexpectedEOF
  | UnexpectedToken (text : String)
  | ExpectedItem (what : String) (after : String)
  | InvalidExternalSpecifier (text : String)
deriving DecidableEq, Repr

/-- Modelled from the spec: `crate::reports::ErrorInfo`, a structured info
block with independently-optional free-text fields, all absent unless
explicitly set. -/
structure ErrorInfo where
  help : Option String := none
  info : Option String := none
  note : Option String := none
  see : Option String := none
deriving DecidableEq, Repr

/-- Modelled from the spec: `crate::reports::CompileError`, one diagnostic
record (an error kind, a source location, and an optional info block). -/
structure CompileError where
  error : Error
  location : Nat
  info : Option ErrorInfo := none
deriving DecidableEq, Repr

def CompileError.new (e : Error) (loc : Nat) : CompileError :=
  { error := e, location := loc, info := none }

def CompileError.with_info (c : CompileError) (i : ErrorInfo) : CompileError :=
  { c with info := some i }

/-- The parser state of `src/frontend/parser.rs`: the token sequence, the
zero-based cursor index, the cached current token, and the diagnostic
sink (`Reports`, modelled as the append-only list of diagnostics). -/
structure Parser where
  tokens : List Token
  token_index : Nat
  token : Token
  reports : List CompileError
deriving DecidableEq, Repr

/-- `Parser::new` (parser.rs lines 28-35): seeds the cached token from the
first element of the lexer's token sequence. The lexer is represented by
its token list; the indexing `l.get_tokens()[0]` fails on an empty
sequence, modelled by `none`. -/
def Parser.new (tokens : List Token) : Option Parser :=
  match tokens with
  | [] => none
  | t :: _ => some { tokens := tokens, token_index := 0, token := t, reports := [] }

/-- `Parser::next` (parser.rs lines 132-135): increments the index and
refreshes the cached token from `self.tokens[self.token_index]`; the
indexing fails when the new index is past the end, modelled by `none`. -/
def Parser.next (p : Parser) : Option Parser :=
  if h : p.token_index + 1 < p.tokens.length then
    some { p with
           token_index := p.token_index + 1,
           token := p.tokens.get ⟨p.token_index + 1, h⟩ }
  else
    none

/-- The `report!` macro (parser.rs lines 14-25), one-argument form: append
one diagnostic built from the error kind and the current token's location
to the sink (the `Err(())` return is modelled at each use site). -/
def Parser.report (p : Parser) (e : Error) : Parser :=
  { p with reports := p.reports ++ [CompileError.new e p.token.location] }

/-- The `report!` macro (parser.rs lines 14-25), two-argument form: as
`Parser.report` but the diagnostic carries the structured info payload. -/
def Parser.report_with_info (p : Parser) (e : Error) (i : ErrorInfo) : Parser :=
  { p with reports := p.reports ++ [(CompileError.new e p.token.location).with_info i] }

/-- Result of a parsing step: `Ok(())` or `Err(())` together with the
parser state (the Rust methods mutate `self`; here the state is returned
explicitly alongside the unit-payload outcome). -/
inductive PResult where
  | ok (p : Parser)
  | err (p : Parser)
deriving DecidableEq, Repr

/-- `Parser::assert_global_item_next` (parser.rs lines 41-62): succeed
when the current token begins a legal global item, otherwise report
`ExpectedItem("global item", after)` with the fixed help/see payload and
fail. -/
def Parser.assert_global_item_next (p : Parser) (after : String) : PResult :=
  match p.token.type with
  | .Fn | .Struct | .Enum | .Class | .Const | .Public | .Private | .Static
  | .Inline | .External | .Abstract | .Final | .Interface => .ok p
  | _ => .err (p.report_with_info (.ExpectedItem "global item" after)
      { help := some "There are only a few items that can be declared at the global scope",
        see := some "https://snowball-lang.gitbook.io/docs/language-reference/global-scope" })

/-- Outcome of the global-declaration loop: success or unit-payload failure
with the final parser state and, on success, the accumulator as filled by
the loop's `add_attr` calls; `panicked` models an out-of-bounds token
access inside `next()` (a Rust panic rather than a return). -/
inductive ParseOutcome where
  | ok (p : Parser) (attrs : AttrHandler)
  | err (p : Parser)
  | panicked
deriving DecidableEq, Repr

set_option maxHeartbeats 1600000 in
/-- The body of `Parser::parse_global` (parser.rs lines 64-130): the
`while *self.token.get_type() != terminator` loop, with the local
accumulator `attrs` threaded as a parameter. Each arm mirrors one arm of
the source `match self.token.get_type()`; `self.next()` is the fallible
cursor advance and an `Err` from `assert_global_item_next` propagates via
the source's `?`. -/
def Parser.parse_global_loop (p : Parser) (terminator : TokenType) (attrs : AttrHandler) :
    ParseOutcome :=
  if p.token.type = terminator then .ok p attrs
  else
    match p.token.type with
    | .EOF => .err (p.report .UnexpectedEOF)
    | .Public =>
      match hn : p.next with
      | none => .panicked
      | some p1 =>
        let attrs1 := attrs.add_attr (.Privacy true)
        match ha : p1.assert_global_item_next "public" with
        | .err p2 => .err p2
        | .ok p2 => p2.parse_global_loop terminator attrs1
    | .Private =>
      match hn : p.next with
      | none => .panicked
      | some p1 =>
        let attrs1 := attrs.add_attr (.Privacy false)
        match ha : p1.assert_global_item_next "private" with
        | .err p2 => .err p2
        | .ok p2 => p2.parse_global_loop terminator attrs1
    | .Static =>
      match hn : p.next with
      | none => .panicked
      | some p1 =>
        let attrs1 := attrs.add_attr .Static
        match ha : p1.assert_global_item_next "static" with
        | .err p2 => .err p2
        | .ok p2 => p2.parse_global_loop terminator attrs1
    | .Inline =>
      match hn : p.next with
      | none => .panicked
      | some p1 =>
        let attrs1 := attrs.add_attr .Inline
        match ha : p1.assert_global_item_next "inline" with
        | .err p2 => .err p2
        | .ok p2 => p2.parse_global_loop terminator attrs1
    | .External =>
      match hn : p.next with
      | none => .panicked
      | some p1 =>
        match p1.token.type with
        | .String data =>
          if data = "C" then
            let attrs1 := attrs.add_attr (.External .C)
            match hn2 : p1.next with
            | none => .panicked
            | some p2 =>
              match ha : p2.assert_global_item_next "external" with
              | .err p3 => .err p3
              | .ok p3 => p3.parse_global_loop terminator attrs1
          else if data = "snowball" then
            let attrs1 := attrs.add_attr (.External .Snowball)
            match hn2 : p1.next with
            | none => .panicked
            | some p2 =>
              match ha : p2.assert_global_item_next "external" with
              | .err p3 => .err p3
              | .ok p3 => p3.parse_global_loop terminator attrs1
          else if data = "system" then
            let attrs1 := attrs.add_attr (.External .System)
            match hn2 : p1.next with
            | none => .panicked
            | some p2 =>
              match ha : p2.assert_global_item_next "external" with
              | .err p3 => .err p3
              | .ok p3 => p3.parse_global_loop terminator attrs1
          else
            .err (p1.report_with_info (.InvalidExternalSpecifier data)
              { help := some "The external specifier must be one of the following: \x27C\x27, \x27snowball\x27, \x27system\x27",
                info := some "Not a valid external specifier!",
                note := some "External specifiers are used to specify the data that is being imported from an external source",
                see := some "https://snowball-lang.gitbook.io/docs/language-reference/external-specifier" })
        | _ =>
          .err (p1.report_with_info (.ExpectedItem "external specifier" "external")
            { help := some "The external specifier must be a string literal",
              note := some "External specifiers are used to specify the data that is being imported from an external source",
              see := some "https://snowball-lang.gitbook.io/docs/language-reference/external-specifier" })
    | .Abstract =>
      match hn : p.next with
      | none => .panicked
      | some p1 =>
        let attrs1 := attrs.add_attr .Abstract
        match ha : p1.assert_global_item_next "abstract" with
        | .err p2 => .err p2
        | .ok p2 => p2.parse_global_loop terminator attrs1
    | .Final =>
      match hn : p.next with
      | none => .panicked
      | some p1 =>
        let attrs1 := attrs.add_attr .Final
        match ha : p1.assert_global_item_next "final" with
        | .err p2 => .err p2
        | .ok p2 => p2.parse_global_loop terminator attrs1
    | _ => .err (p.report (.UnexpectedToken p.token.value))
termination_by p.tokens.length - p.token_index
decreasing_by
  all_goals unfold Parser.assert_global_item_next at ha
  all_goals (split at ha <;> cases ha)
  all_goals unfold Parser.next at hn
  all_goals try unfold Parser.next at hn2
  all_goals (split at hn <;> cases hn)
  all_goals try (split at hn2 <;> cases hn2)
  all_goals ((try dsimp only at *); omega)

/-- `Parser::parse_global` (parser.rs lines 64-130): fresh accumulator,
then the loop. -/
def Parser.parse_global (p : Parser) (terminator : TokenType) : ParseOutcome :=
  p.parse_global_loop terminator AttrHandler.new

/-- `Parser::parse` (parser.rs lines 37-39): the whole compilation unit,
terminated by `EOF`. -/
def Parser.parse (p : Parser) : ParseOutcome :=
  p.parse_global .EOF

/-- `Parser::get_reports` (parser.rs lines 137-139). -/
def Parser.get_reports (p : Parser) : List CompileError :=
  p.reports

/-- `BinaryOp` (nodes.rs lines 6-24): the closed set of 16 operator tags. -/
inductive BinaryOp where
  | Add
  | Sub
  | Mul
  | Div
  | Mod
  | Eq
  | Ne
  | Lt
  | Le
  | Gt
  | Ge
  | And
  | Or
  | New
  | Del
  | Index
deriving DecidableEq, Repr

mutual

/-- `AstType` (nodes.rs lines 26-39): a wrapper marking a `Node` as
denoting a type. -/
inductive AstType where
  | mk (ast : Node)

/-- `GenericDecl` (nodes.rs lines 41-60): one generic parameter with its
name, optional default type, and capability bounds. -/
inductive GenericDecl where
  | mk (name : String) (default : Option AstType) (impls : List AstType)

/-- `ClassMember` (nodes.rs lines 62-80): a named field with exactly one
type. -/
inductive ClassMember where
  | mk (name : String) (ty : AstType)

/-- `AST` (nodes.rs lines 82-87) at its default instantiation
`AST<Node, ExprNode>`: the top-level tagged union. -/
inductive AST where
  | TopLevel (items : List Node)
  | Stmt (s : Stmt)
  | Expr (e : Expr)

/-- `Stmt<Node>` (nodes.rs lines 89-105): the closed statement vocabulary.
The Rust `HashMap<String, AstType>` of `FuncDef` arguments is modelled as
an association list. -/
inductive Stmt where
  | Return (val : Option Node)
  | Break
  | Continue
  | If (cond : Node) (thenBranch : Node) (elifs : List Node)
  | While (cond : Node) (body : List Node) (is_do_while : Bool)
  | For (init : Node) (cond : Node) (step : Node) (body : List Node)
  | Block (body : List Node)
  | FuncDef (name : String) (args : List (String × AstType)) (ret : AstType)
      (body : Option Node) (generics : Option (List GenericDecl))
  | VarDef (ty : Option Node) (init : Node)
  | ClassDef (name : Option Node) (members : List ClassMember) (generics : List GenericDecl)
  | NamespaceDef (name : Option Node) (body : List Node)
  | Import (path : Node)
  | InterfaceDef (name : Option Node) (members : List Node) (generics : List GenericDecl)
  | EnumDef (name : Option Node) (variants : List Node)

/-- `Expr<ExprNode>` (nodes.rs lines 107-121): the closed expression
vocabulary. -/
inductive Expr where
  | ClassInit (ty : AstType) (args : List ExprNode)
  | ClassAccess (recv : ExprNode) (member : String)
  | NamespaceAccess (recv : ExprNode) (member : String)
  | Ident (name : String) (generics : Option (List AstType))
  | Int (n : Int)
  | Float (x : Float)
  | String (s : String)
  | Bool (b : Bool)
  | Call (callee : ExprNode) (args : List ExprNode)
  | Cast (val : ExprNode) (ty : AstType)
  | BinaryOp (op : BinaryOp) (lhs : ExprNode) (rhs : ExprNode) (is_unary : Bool)
  | Assign (target : ExprNode) (val : ExprNode)

/-- `Node` (nodes.rs lines 123-127): a boxed `AST` value plus an optional
attribute set attached after construction. -/
inductive Node where
  | mk (kind : AST) (attrs : Option AttrHandler)

/-- `ExprNode` (nodes.rs lines 129-133): a boxed `Expr` value plus an
optional attribute set. -/
inductive ExprNode where
  | mk (kind : Expr) (attrs : Option AttrHandler)

end

/-- `AstType::new` (nodes.rs line 32). -/
def AstType.new (ast : Node) : AstType := .mk ast

/-- `AstType::get_ast` (nodes.rs line 36). -/
def AstType.get_ast : AstType → Node
  | .mk ast => ast

/-- `Node::new` (nodes.rs line 136): a node is built bare, with no
attribute set. -/
def Node.new (kind : AST) : Node := .mk kind none

/-- `Node::get_kind` (nodes.rs line 140). -/
def Node.get_kind : Node → AST
  | .mk kind _ => kind

/-- `Node::with_attrs` (nodes.rs line 144): sets the attribute slot,
replacing any previous value. -/
def Node.with_attrs : Node → AttrHandler → Node
  | .mk kind _, attrs => .mk kind (some attrs)

/-- `Node::get_attrs` (nodes.rs line 149). -/
def Node.get_attrs : Node → Option AttrHandler
  | .mk _ attrs => attrs

/-- The token types accepted by `assert_global_item_next` (parser.rs lines
43-55): the legal global-item starter set. -/
def TokenType.is_global_item_start : TokenType → Bool
  | .Fn | .Struct | .Enum | .Class | .Const | .Public | .Private | .Static
  | .Inline | .External | .Abstract | .Final | .Interface => true
  | _ => false

/-- The cursor of `p` sits at the start of the token run `l`: `l` is the
suffix of the token sequence from the current index, and the cached
current token is its head. -/
def AtTokens (p : Parser) (l : List Token) : Prop :=
  p.tokens.drop p.token_index = l ∧ l.head? = some p.token

/-- One accepted declaration modifier, as a unit of surface syntax: one of
the six plain modifier keywords, or `external` together with a valid
linkage specifier string. -/
inductive ModUnit where
  | Public
  | Private
  | Static
  | Inline
  | Abstract
  | Final
  | External (linkage : ExternalLinkage)
deriving DecidableEq, Repr

/-- The keyword token type that starts a modifier unit. -/
def ModUnit.keyword : ModUnit → TokenType
  | .Public => .Public
  | .Private => .Private
  | .Static => .Static
  | .Inline => .Inline
  | .Abstract => .Abstract
  | .Final => .Final
  | .External _ => .External

/-- The modifier's name, as `parse_global` passes it to
`assert_global_item_next`. -/
def ModUnit.name : ModUnit → String
  | .Public => "public"
  | .Private => "private"
  | .Static => "static"
  | .Inline => "inline"
  | .Abstract => "abstract"
  | .Final => "final"
  | .External _ => "external"

/-- The attribute `parse_global` records for a modifier unit. -/
def ModUnit.attr : ModUnit → AstAttrs
  | .Public => .Privacy true
  | .Private => .Privacy false
  | .Static => .Static
  | .Inline => .Inline
  | .Abstract => .Abstract
  | .Final => .Final
  | .External lk => .External lk

/-- The string literal naming an external linkage kind, as matched by the
`external` arm of `parse_global`. -/
def ExternalLinkage.specifier : ExternalLinkage → String
  | .C => "C"
  | .Snowball => "snowball"
  | .System => "system"

/-- The token runs that spell a modifier unit: one keyword token, or for
`external` the keyword followed by a string literal holding a valid
specifier. -/
def UnitTokens : ModUnit → List Token → Prop
  | .External lk, l => ∃ t1 t2, l = [t1, t2] ∧ t1.type = .External ∧
      t2.type = .String lk.specifier
  | u, l => ∃ t1, l = [t1] ∧ t1.type = u.keyword

/-- The token runs that spell a sequence of modifier units, one after the
other. -/
inductive PrefixTokens : List ModUnit → List Token → Prop where
  | nil : PrefixTokens [] []
  | cons {u : ModUnit} {us : List ModUnit} {ts1 ts2 : List Token} :
      UnitTokens u ts1 → PrefixTokens us ts2 → PrefixTokens (u :: us) (ts1 ++ ts2)

/-- Two loop outcomes have the same success/failure constructor. -/
def sameCtor : ParseOutcome → ParseOutcome → Prop
  | .ok _ _, .ok _ _ => True
  | .err _, .err _ => True
  | .panicked, .panicked => True
  | _, _ => False

/-- Correspondence between two runs of the loop started with accumulators
`a1` and `a2`: the outcomes have the same constructor, and on success the
two final accumulators extend `a1` and `a2` by one common suffix of added
attributes. -/
inductive SameRun (a1 a2 : AttrHandler) : ParseOutcome → ParseOutcome → Prop where
  | ok (p1 p2 : Parser) (d : List AstAttrs) :
      SameRun a1 a2 (.ok p1 ⟨a1.attrs ++ d⟩) (.ok p2 ⟨a2.attrs ++ d⟩)
  | err (p1 p2 : Parser) : SameRun a1 a2 (.err p1) (.err p2)
  | panicked : SameRun a1 a2 .panicked .panicked

theorem next_eq_some_fields {p q : Parser} (h : p.next = some q) :
    q.tokens = p.tokens ∧ q.token_index = p.token_index + 1 ∧ q.reports = p.reports ∧
    ∃ hlt : p.token_index + 1 < p.tokens.length,
      q.token = p.tokens.get ⟨p.token_index + 1, hlt⟩ := by
  unfold Parser.next at h
  split at h
  case isTrue hlt =>
    cases h
    exact ⟨rfl, rfl, rfl, hlt, rfl⟩
  case isFalse => cases h

theorem next_eq_none_iff (p : Parser) :
    p.next = none ↔ p.tokens.length ≤ p.token_index + 1 := by
  unfold Parser.next
  split <;> simp_all

theorem assert_of_start (p : Parser) (s : String)
    (h : p.token.type.is_global_item_start = true) :
    p.assert_global_item_next s = .ok p := by
  unfold Parser.assert_global_item_next
  unfold TokenType.is_global_item_start at h
  split <;> simp_all

theorem assert_of_not_start (p : Parser) (s : String)
    (h : p.token.type.is_global_item_start = false) :
    p.assert_global_item_next s = .err (p.report_with_info (.ExpectedItem "global item" s)
      { help := some "There are only a few items that can be declared at the global scope",
        see := some "https://snowball-lang.gitbook.io/docs/language-reference/global-scope" }) := by
  unfold Parser.assert_global_item_next
  unfold TokenType.is_global_item_start at h
  split <;> simp_all

/-- C5: for every token sequence whose first token has the caller-supplied
terminator's type, `parse_global` returns success with the parser state
unchanged (the cursor has not advanced) and the diagnostic sink empty. -/
theorem parse_global_terminator_first (tok : Token) (ts : List Token) (t : TokenType)
    (h : tok.type = t) :
    ∃ p : Parser, Parser.new (tok :: ts) = some p ∧
      p.parse_global t = .ok p AttrHandler.new ∧ p.reports = [] := by
  refine ⟨⟨tok :: ts, 0, tok, []⟩, rfl, ?_, rfl⟩
  unfold Parser.parse_global
  rw [Parser.parse_global_loop]
  simp [h]

theorem parse_global_terminator_first_witness :
    ∃ p : Parser, Parser.new [⟨.EOF, "", 0⟩] = some p ∧
      p.parse_global .EOF = .ok p AttrHandler.new ∧ p.reports = [] :=
  parse_global_terminator_first ⟨.EOF, "", 0⟩ [] .EOF rfl

/-- C4: for every token sequence whose first token is `EOF` and every
terminator other than `EOF`, `parse_global` fails and the sink holds
exactly one `UnexpectedEOF` diagnostic. -/
theorem parse_global_eof_first (tok : Token) (ts : List Token) (t : TokenType)
    (htok : tok.type = .EOF) (ht : t ≠ .EOF) :
    ∃ p p' : Parser, Parser.new (tok :: ts) = some p ∧
      p.parse_global t = .err p' ∧
      p'.reports = [CompileError.new .UnexpectedEOF tok.location] := by
  refine ⟨⟨tok :: ts, 0, tok, []⟩,
    ⟨tok :: ts, 0, tok, [CompileError.new .UnexpectedEOF tok.location]⟩, rfl, ?_, rfl⟩
  unfold Parser.parse_global
  rw [Parser.parse_global_loop]
  simp [htok, Ne.symm ht, Parser.report]

theorem parse_global_eof_first_witness :
    ∃ p p' : Parser, Parser.new [⟨.EOF, "", 7⟩] = some p ∧
      p.parse_global .Fn = .err p' ∧
      p'.reports = [CompileError.new .UnexpectedEOF 7] :=
  parse_global_eof_first ⟨.EOF, "", 7⟩ [] .Fn rfl (by decide)

/-- C6: any current token that is neither the terminator, nor `EOF`, nor
one of the seven modifier keywords makes `parse_global` fail with an
`UnexpectedToken` diagnostic carrying that token's textual value. -/
theorem parse_global_unrecognized (p : Parser) (t : TokenType)
    (h1 : p.token.type ≠ t)
    (h2 : p.token.type ≠ .EOF)
    (h3 : p.token.type ≠ .Public) (h4 : p.token.type ≠ .Private)
    (h5 : p.token.type ≠ .Static) (h6 : p.token.type ≠ .Inline)
    (h7 : p.token.type ≠ .External) (h8 : p.token.type ≠ .Abstract)
    (h9 : p.token.type ≠ .Final) :
    p.parse_global t = .err (p.report (.UnexpectedToken p.token.value)) ∧
    (p.report (.UnexpectedToken p.token.value)).reports =
      p.reports ++ [CompileError.new (.UnexpectedToken p.token.value) p.token.location] := by
  refine ⟨?_, rfl⟩
  unfold Parser.parse_global
  rw [Parser.parse_global_loop]
  rcases htk : p.token.type <;> simp_all

theorem parse_global_unrecognized_witness :
    (⟨[⟨.Int 42, "42", 3⟩], 0, ⟨.Int 42, "42", 3⟩, []⟩ : Parser).parse_global .EOF =
      .err ((⟨[⟨.Int 42, "42", 3⟩], 0, ⟨.Int 42, "42", 3⟩, []⟩ : Parser).report
        (.UnexpectedToken "42")) ∧
    ((⟨[⟨.Int 42, "42", 3⟩], 0, ⟨.Int 42, "42", 3⟩, []⟩ : Parser).report
        (.UnexpectedToken "42")).reports =
      [] ++ [CompileError.new (.UnexpectedToken "42") 3] :=
  parse_global_unrecognized ⟨[⟨.Int 42, "42", 3⟩], 0, ⟨.Int 42, "42", 3⟩, []⟩ .EOF
    (by decide) (by decide) (by decide) (by decide) (by decide) (by decide)
    (by decide) (by decide) (by decide)

/-- C7: reading back the variant stored by `Node::new` returns the input
variant; `get_attrs` after `with_attrs` returns exactly the attached set;
attaching twice leaves exactly the second set, silently discarding the
first. -/
theorem node_attrs_roundtrip :
    (∀ a : AST, (Node.new a).get_kind = a) ∧
    (∀ (n : Node) (s : AttrHandler), (n.with_attrs s).get_attrs = some s) ∧
    (∀ (n : Node) (s1 s2 : AttrHandler),
      (n.with_attrs s1).with_attrs s2 = n.with_attrs s2 ∧
      ((n.with_attrs s1).with_attrs s2).get_attrs = some s2) := by
  refine ⟨fun a => rfl, fun n s => ?_, fun n s1 s2 => ?_⟩
  · cases n
    rfl
  · cases n
    exact ⟨rfl, rfl⟩

/-- C9: `next()` increments the index by exactly one and replaces the
cached token with the token at the new index; it fails exactly when the
new index is past the end; and when the sequence ends in an `EOF` sentinel,
the cache is coherent and the current token is not `EOF`, the failing
branch is unreachable. -/
theorem next_advances (p : Parser) :
    (∀ q : Parser, p.next = some q →
      q.token_index = p.token_index + 1 ∧ q.tokens = p.tokens ∧ q.reports = p.reports ∧
      ∃ hlt : p.token_index + 1 < p.tokens.length,
        q.token = p.tokens.get ⟨p.token_index + 1, hlt⟩) ∧
    (p.next = none ↔ p.tokens.length ≤ p.token_index + 1) ∧
    (∀ hne : p.tokens ≠ [], (p.tokens.getLast hne).type = .EOF →
      ∀ hlt : p.token_index < p.tokens.length,
        p.token = p.tokens.get ⟨p.token_index, hlt⟩ →
        p.token.type ≠ .EOF → p.next.isSome = true) := by
  refine ⟨fun q h => ?_, next_eq_none_iff p, fun hne hlast hlt hcache htype => ?_⟩
  · obtain ⟨h1, h2, h3, h4⟩ := next_eq_some_fields h
    exact ⟨h2, h1, h3, h4⟩
  · unfold Parser.next
    split
    · rfl
    case isFalse hge =>
      exfalso
      apply htype
      have hidx : p.token_index = p.tokens.length - 1 := by omega
      have hgl : p.token = p.tokens.getLast hne := by
        rw [hcache, List.getLast_eq_getElem]
        simp only [List.get_eq_getElem, hidx]
      rw [hgl, hlast]

theorem next_advances_witness :
    ((⟨[⟨.Public, "public", 0⟩, ⟨.EOF, "", 1⟩], 0, ⟨.Public, "public", 0⟩, []⟩ :
      Parser).next).isSome = true :=
  (next_advances _).2.2 (by decide) (by decide) (by decide) (by decide) (by decide)

/-- C10: `Parser::new` reads the first token of the sequence to seed the
cached current token, so it fails exactly on an empty sequence; on a
non-empty sequence it starts at index 0 with the first token cached and
an empty sink. -/
theorem new_requires_nonempty :
    Parser.new [] = none ∧
    ∀ (tok : Token) (ts : List Token),
      Parser.new (tok :: ts) = some ⟨tok :: ts, 0, tok, []⟩ :=
  ⟨rfl, fun _ _ => rfl⟩

theorem report_reports (p : Parser) (e : Error) :
    (p.report e).reports = p.reports ++ [CompileError.new e p.token.location] := rfl

theorem report_with_info_reports (p : Parser) (e : Error) (i : ErrorInfo) :
    (p.report_with_info e i).reports =
      p.reports ++ [(CompileError.new e p.token.location).with_info i] := rfl

theorem assert_eq_ok {p q : Parser} {s : String}
    (h : p.assert_global_item_next s = .ok q) : q = p := by
  unfold Parser.assert_global_item_next at h
  split at h <;> cases h <;> rfl

theorem assert_err_reports {p q : Parser} {s : String}
    (h : p.assert_global_item_next s = .err q) :
    ∃ e, q.reports = p.reports ++ [e] := by
  unfold Parser.assert_global_item_next at h
  split at h <;> cases h
  exact ⟨_, rfl⟩


theorem loop_reports_delta (p : Parser) (t : TokenType) (a : AttrHandler) :
    (∀ p' a', p.parse_global_loop t a = .ok p' a' → p'.reports = p.reports) ∧
    (∀ p', p.parse_global_loop t a = .err p' → ∃ e, p'.reports = p.reports ++ [e]) := by
  suffices H : ∀ (n : Nat) (q : Parser) (b : AttrHandler),
      q.tokens.length - q.token_index = n →
      (∀ p' a', q.parse_global_loop t b = .ok p' a' → p'.reports = q.reports) ∧
      (∀ p', q.parse_global_loop t b = .err p' → ∃ e, p'.reports = q.reports ++ [e]) by
    exact H _ p a rfl
  intro n
  induction n using Nat.strong_induction_on with
  | _ n ih =>
  intro q b hm
  constructor
  · intro p' a' hout
    rw [Parser.parse_global_loop] at hout
    split at hout
    · cases hout
      rfl
    · split at hout
      · cases hout
      · try dsimp only at hout
        split at hout
        · cases hout
        · rename_i p1 hn
          try dsimp only at hout
          split at hout
          · cases hout
          · rename_i p2 ha2
            cases assert_eq_ok ha2
            obtain ⟨hts, hidx, hrep, hlt, -⟩ := next_eq_some_fields hn
            have hrec := (ih (p1.tokens.length - p1.token_index)
              (by rw [hts, hidx]; omega) p1 (b.add_attr (.Privacy true)) rfl).1 p' a' hout
            exact hrec.trans hrep
      · try dsimp only at hout
        split at hout
        · cases hout
        · rename_i p1 hn
          try dsimp only at hout
          split at hout
          · cases hout
          · rename_i p2 ha2
            cases assert_eq_ok ha2
            obtain ⟨hts, hidx, hrep, hlt, -⟩ := next_eq_some_fields hn
            have hrec := (ih (p1.tokens.length - p1.token_index)
              (by rw [hts, hidx]; omega) p1 (b.add_attr (.Privacy false)) rfl).1 p' a' hout
            exact hrec.trans hrep
      · try dsimp only at hout
        split at hout
        · cases hout
        · rename_i p1 hn
          try dsimp only at hout
          split at hout
          · cases hout
          · rename_i p2 ha2
            cases assert_eq_ok ha2
            obtain ⟨hts, hidx, hrep, hlt, -⟩ := next_eq_some_fields hn
            have hrec := (ih (p1.tokens.length - p1.token_index)
              (by rw [hts, hidx]; omega) p1 (b.add_attr .Static) rfl).1 p' a' hout
            exact hrec.trans hrep
      · try dsimp only at hout
        split at hout
        · cases hout
        · rename_i p1 hn
          try dsimp only at hout
          split at hout
          · cases hout
          · rename_i p2 ha2
            cases assert_eq_ok ha2
            obtain ⟨hts, hidx, hrep, hlt, -⟩ := next_eq_some_fields hn
            have hrec := (ih (p1.tokens.length - p1.token_index)
              (by rw [hts, hidx]; omega) p1 (b.add_attr .Inline) rfl).1 p' a' hout
            exact hrec.trans hrep
      · try dsimp only at hout
        split at hout
        · cases hout
        · rename_i p1 hn
          try dsimp only at hout
          split at hout
          · rename_i data hstr
            try dsimp only at hout
            split at hout
            · rename_i hC
              try dsimp only at hout
              split at hout
              · cases hout
              · rename_i p2 hn2
                try dsimp only at hout
                split at hout
                · cases hout
                · rename_i p3 ha2
                  cases assert_eq_ok ha2
                  obtain ⟨hts, hidx, hrep, hlt, -⟩ := next_eq_some_fields hn
                  obtain ⟨hts2, hidx2, hrep2, hlt2, -⟩ := next_eq_some_fields hn2
                  have hm2 : p2.tokens.length - p2.token_index < n := by
                    rw [hts, hidx] at hlt2
                    rw [hts2, hidx2, hts, hidx]
                    omega
                  have hrec := (ih (p2.tokens.length - p2.token_index) hm2 p2
                    (b.add_attr (.External .C)) rfl).1 p' a' hout
                  exact (hrec.trans hrep2).trans hrep
            · rename_i hC
              split at hout
              · rename_i hS
                try dsimp only at hout
                split at hout
                · cases hout
                · rename_i p2 hn2
                  try dsimp only at hout
                  split at hout
                  · cases hout
                  · rename_i p3 ha2
                    cases assert_eq_ok ha2
                    obtain ⟨hts, hidx, hrep, hlt, -⟩ := next_eq_some_fields hn
                    obtain ⟨hts2, hidx2, hrep2, hlt2, -⟩ := next_eq_some_fields hn2
                    have hm2 : p2.tokens.length - p2.token_index < n := by
                      rw [hts, hidx] at hlt2
                      rw [hts2, hidx2, hts, hidx]
                      omega
                    have hrec := (ih (p2.tokens.length - p2.token_index) hm2 p2
                      (b.add_attr (.External .Snowball)) rfl).1 p' a' hout
                    exact (hrec.trans hrep2).trans hrep
              · rename_i hS
                split at hout
                · rename_i hY
                  try dsimp only at hout
                  split at hout
                  · cases hout
                  · rename_i p2 hn2
                    try dsimp only at hout
                    split at hout
                    · cases hout
                    · rename_i p3 ha2
                      cases assert_eq_ok ha2
                      obtain ⟨hts, hidx, hrep, hlt, -⟩ := next_eq_some_fields hn
                      obtain ⟨hts2, hidx2, hrep2, hlt2, -⟩ := next_eq_some_fields hn2
                      have hm2 : p2.tokens.length - p2.token_index < n := by
                        rw [hts, hidx] at hlt2
                        rw [hts2, hidx2, hts, hidx]
                        omega
                      have hrec := (ih (p2.tokens.length - p2.token_index) hm2 p2
                        (b.add_attr (.External .System)) rfl).1 p' a' hout
                      exact (hrec.trans hrep2).trans hrep
                · cases hout
          · cases hout
      · try dsimp only at hout
        split at hout
        · cases hout
        · rename_i p1 hn
          try dsimp only at hout
          split at hout
          · cases hout
          · rename_i p2 ha2
            cases assert_eq_ok ha2
            obtain ⟨hts, hidx, hrep, hlt, -⟩ := next_eq_some_fields hn
            have hrec := (ih (p1.tokens.length - p1.token_index)
              (by rw [hts, hidx]; omega) p1 (b.add_attr .Abstract) rfl).1 p' a' hout
            exact hrec.trans hrep
      · try dsimp only at hout
        split at hout
        · cases hout
        · rename_i p1 hn
          try dsimp only at hout
          split at hout
          · cases hout
          · rename_i p2 ha2
            cases assert_eq_ok ha2
            obtain ⟨hts, hidx, hrep, hlt, -⟩ := next_eq_some_fields hn
            have hrec := (ih (p1.tokens.length - p1.token_index)
              (by rw [hts, hidx]; omega) p1 (b.add_attr .Final) rfl).1 p' a' hout
            exact hrec.trans hrep
      · cases hout
  · intro p' hout
    rw [Parser.parse_global_loop] at hout
    split at hout
    · cases hout
    · split at hout
      · cases hout
        exact ⟨_, rfl⟩
      · try dsimp only at hout
        split at hout
        · cases hout
        · rename_i p1 hn
          try dsimp only at hout
          split at hout
          · rename_i p2 ha2
            cases hout
            obtain ⟨hts, hidx, hrep, hlt, -⟩ := next_eq_some_fields hn
            obtain ⟨e, he⟩ := assert_err_reports ha2
            exact ⟨e, by rw [he, hrep]⟩
          · rename_i p2 ha2
            cases assert_eq_ok ha2
            obtain ⟨hts, hidx, hrep, hlt, -⟩ := next_eq_some_fields hn
            have hrec := (ih (p1.tokens.length - p1.token_index)
              (by rw [hts, hidx]; omega) p1 (b.add_attr (.Privacy true)) rfl).2 p' hout
            obtain ⟨e, he⟩ := hrec
            exact ⟨e, by rw [he, hrep]⟩
      · try dsimp only at hout
        split at hout
        · cases hout
        · rename_i p1 hn
          try dsimp only at hout
          split at hout
          · rename_i p2 ha2
            cases hout
            obtain ⟨hts, hidx, hrep, hlt, -⟩ := next_eq_some_fields hn
            obtain ⟨e, he⟩ := assert_err_reports ha2
            exact ⟨e, by rw [he, hrep]⟩
          · rename_i p2 ha2
            cases assert_eq_ok ha2
            obtain ⟨hts, hidx, hrep, hlt, -⟩ := next_eq_some_fields hn
            have hrec := (ih (p1.tokens.length - p1.token_index)
              (by rw [hts, hidx]; omega) p1 (b.add_attr (.Privacy false)) rfl).2 p' hout
            obtain ⟨e, he⟩ := hrec
            exact ⟨e, by rw [he, hrep]⟩
      · try dsimp only at hout
        split at hout
        · cases hout
        · rename_i p1 hn
          try dsimp only at hout
          split at hout
          · rename_i p2 ha2
            cases hout
            obtain ⟨hts, hidx, hrep, hlt, -⟩ := next_eq_some_fields hn
            obtain ⟨e, he⟩ := assert_err_reports ha2
            exact ⟨e, by rw [he, hrep]⟩
          · rename_i p2 ha2
            cases assert_eq_ok ha2
            obtain ⟨hts, hidx, hrep, hlt, -⟩ := next_eq_some_fields hn
            have hrec := (ih (p1.tokens.length - p1.token_index)
              (by rw [hts, hidx]; omega) p1 (b.add_attr .Static) rfl).2 p' hout
            obtain ⟨e, he⟩ := hrec
            exact ⟨e, by rw [he, hrep]⟩
      · try dsimp only at hout
        split at hout
        · cases hout
        · rename_i p1 hn
          try dsimp only at hout
          split at hout
          · rename_i p2 ha2
            cases hout
            obtain ⟨hts, hidx, hrep, hlt, -⟩ := next_eq_some_fields hn
            obtain ⟨e, he⟩ := assert_err_reports ha2
            exact ⟨e, by rw [he, hrep]⟩
          · rename_i p2 ha2
            cases assert_eq_ok ha2
            obtain ⟨hts, hidx, hrep, hlt, -⟩ := next_eq_some_fields hn
            have hrec := (ih (p1.tokens.length - p1.token_index)
              (by rw [hts, hidx]; omega) p1 (b.add_attr .Inline) rfl).2 p' hout
            obtain ⟨e, he⟩ := hrec
            exact ⟨e, by rw [he, hrep]⟩
      · try dsimp only at hout
        split at hout
        · cases hout
        · rename_i p1 hn
          try dsimp only at hout
          split at hout
          · rename_i data hstr
            try dsimp only at hout
            split at hout
            · rename_i hC
              try dsimp only at hout
              split at hout
              · cases hout
              · rename_i p2 hn2
                try dsimp only at hout
                split at hout
                · rename_i p3 ha2
                  cases hout
                  obtain ⟨hts, hidx, hrep, hlt, -⟩ := next_eq_some_fields hn
                  obtain ⟨hts2, hidx2, hrep2, hlt2, -⟩ := next_eq_some_fields hn2
                  obtain ⟨e, he⟩ := assert_err_reports ha2
                  exact ⟨e, by rw [he, hrep2, hrep]⟩
                · rename_i p3 ha2
                  cases assert_eq_ok ha2
                  obtain ⟨hts, hidx, hrep, hlt, -⟩ := next_eq_some_fields hn
                  obtain ⟨hts2, hidx2, hrep2, hlt2, -⟩ := next_eq_some_fields hn2
                  have hm2 : p2.tokens.length - p2.token_index < n := by
                    rw [hts, hidx] at hlt2
                    rw [hts2, hidx2, hts, hidx]
                    omega
                  have hrec := (ih (p2.tokens.length - p2.token_index) hm2 p2
                    (b.add_attr (.External .C)) rfl).2 p' hout
                  obtain ⟨e, he⟩ := hrec
                  exact ⟨e, by rw [he, hrep2, hrep]⟩
            · rename_i hC
              split at hout
              · rename_i hS
                try dsimp only at hout
                split at hout
                · cases hout
                · rename_i p2 hn2
                  try dsimp only at hout
                  split at hout
                  · rename_i p3 ha2
                    cases hout
                    obtain ⟨hts, hidx, hrep, hlt, -⟩ := next_eq_some_fields hn
                    obtain ⟨hts2, hidx2, hrep2, hlt2, -⟩ := next_eq_some_fields hn2
                    obtain ⟨e, he⟩ := assert_err_reports ha2
                    exact ⟨e, by rw [he, hrep2, hrep]⟩
                  · rename_i p3 ha2
                    cases assert_eq_ok ha2
                    obtain ⟨hts, hidx, hrep, hlt, -⟩ := next_eq_some_fields hn
                    obtain ⟨hts2, hidx2, hrep2, hlt2, -⟩ := next_eq_some_fields hn2
                    have hm2 : p2.tokens.length - p2.token_index < n := by
                      rw [hts, hidx] at hlt2
                      rw [hts2, hidx2, hts, hidx]
                      omega
                    have hrec := (ih (p2.tokens.length - p2.token_index) hm2 p2
                      (b.add_attr (.External .Snowball)) rfl).2 p' hout
                    obtain ⟨e, he⟩ := hrec
                    exact ⟨e, by rw [he, hrep2, hrep]⟩
              · rename_i hS
                split at hout
                · rename_i hY
                  try dsimp only at hout
                  split at hout
                  · cases hout
                  · rename_i p2 hn2
                    try dsimp only at hout
                    split at hout
                    · rename_i p3 ha2
                      cases hout
                      obtain ⟨hts, hidx, hrep, hlt, -⟩ := next_eq_some_fields hn
                      obtain ⟨hts2, hidx2, hrep2, hlt2, -⟩ := next_eq_some_fields hn2
                      obtain ⟨e, he⟩ := assert_err_reports ha2
                      exact ⟨e, by rw [he, hrep2, hrep]⟩
                    · rename_i p3 ha2
                      cases assert_eq_ok ha2
                      obtain ⟨hts, hidx, hrep, hlt, -⟩ := next_eq_some_fields hn
                      obtain ⟨hts2, hidx2, hrep2, hlt2, -⟩ := next_eq_some_fields hn2
                      have hm2 : p2.tokens.length - p2.token_index < n := by
                        rw [hts, hidx] at hlt2
                        rw [hts2, hidx2, hts, hidx]
                        omega
                      have hrec := (ih (p2.tokens.length - p2.token_index) hm2 p2
                        (b.add_attr (.External .System)) rfl).2 p' hout
                      obtain ⟨e, he⟩ := hrec
                      exact ⟨e, by rw [he, hrep2, hrep]⟩
                · rename_i hY
                  cases hout
                  obtain ⟨hts, hidx, hrep, hlt, -⟩ := next_eq_some_fields hn
                  exact ⟨_, by rw [report_with_info_reports, hrep]⟩
          · rename_i hnostr
            cases hout
            obtain ⟨hts, hidx, hrep, hlt, -⟩ := next_eq_some_fields hn
            exact ⟨_, by rw [report_with_info_reports, hrep]⟩
      · try dsimp only at hout
        split at hout
        · cases hout
        · rename_i p1 hn
          try dsimp only at hout
          split at hout
          · rename_i p2 ha2
            cases hout
            obtain ⟨hts, hidx, hrep, hlt, -⟩ := next_eq_some_fields hn
            obtain ⟨e, he⟩ := assert_err_reports ha2
            exact ⟨e, by rw [he, hrep]⟩
          · rename_i p2 ha2
            cases assert_eq_ok ha2
            obtain ⟨hts, hidx, hrep, hlt, -⟩ := next_eq_some_fields hn
            have hrec := (ih (p1.tokens.length - p1.token_index)
              (by rw [hts, hidx]; omega) p1 (b.add_attr .Abstract) rfl).2 p' hout
            obtain ⟨e, he⟩ := hrec
            exact ⟨e, by rw [he, hrep]⟩
      · try dsimp only at hout
        split at hout
        · cases hout
        · rename_i p1 hn
          try dsimp only at hout
          split at hout
          · rename_i p2 ha2
            cases hout
            obtain ⟨hts, hidx, hrep, hlt, -⟩ := next_eq_some_fields hn
            obtain ⟨e, he⟩ := assert_err_reports ha2
            exact ⟨e, by rw [he, hrep]⟩
          · rename_i p2 ha2
            cases assert_eq_ok ha2
            obtain ⟨hts, hidx, hrep, hlt, -⟩ := next_eq_some_fields hn
            have hrec := (ih (p1.tokens.length - p1.token_index)
              (by rw [hts, hidx]; omega) p1 (b.add_attr .Final) rfl).2 p' hout
            obtain ⟨e, he⟩ := hrec
            exact ⟨e, by rw [he, hrep]⟩
      · cases hout
        exact ⟨_, rfl⟩

/-- C3: `parse_global` returns the unit-payload failure exactly when one
diagnostic was appended to the sink during the call: on failure the sink
grew by exactly one record, on success it is unchanged (diagnostic content
travels only through the sink, and parsing stops at the first error). -/
theorem parse_global_reports_protocol (p : Parser) (t : TokenType) :
    match p.parse_global t with
    | .ok p' _ => p'.reports = p.reports
    | .err p' => ∃ e, p'.reports = p.reports ++ [e]
    | .panicked => True := by
  have h := loop_reports_delta p t AttrHandler.new
  cases hout : p.parse_global t with
  | ok p' a' =>
    try dsimp only
    exact h.1 p' a' hout
  | err p' =>
    try dsimp only
    exact h.2 p' hout
  | panicked => try dsimp only

/-- C1: with the current token `external` (and a terminator other than
`external`), a following string literal naming a valid linkage adds the
corresponding `ExternalLinkage` attribute to the accumulator and parsing
continues past the string (from the state after the second advance); any
other string fails with `InvalidExternalSpecifier` carrying that string;
a non-string token after `external` fails with
`ExpectedItem("external specifier", "external")`. -/
theorem external_specifier_behavior (p p1 : Parser) (t : TokenType) (a : AttrHandler)
    (hx : p.token.type = .External) (ht : t ≠ .External) (hn : p.next = some p1) :
    (∀ lk : ExternalLinkage, p1.token.type = .String lk.specifier →
      (∀ p2 p3, p1.next = some p2 →
        p2.assert_global_item_next "external" = .err p3 →
        p.parse_global_loop t a = .err p3) ∧
      (∀ p2 p3, p1.next = some p2 →
        p2.assert_global_item_next "external" = .ok p3 →
        p.parse_global_loop t a =
          p3.parse_global_loop t (a.add_attr (.External lk)))) ∧
    (∀ s : String, p1.token.type = .String s →
      s ≠ "C" → s ≠ "snowball" → s ≠ "system" →
      p.parse_global_loop t a =
        .err (p1.report_with_info (.InvalidExternalSpecifier s)
          { help := some "The external specifier must be one of the following: \x27C\x27, \x27snowball\x27, \x27system\x27",
            info := some "Not a valid external specifier!",
            note := some "External specifiers are used to specify the data that is being imported from an external source",
            see := some "https://snowball-lang.gitbook.io/docs/language-reference/external-specifier" })) ∧
    ((∀ s, p1.token.type ≠ .String s) →
      p.parse_global_loop t a =
        .err (p1.report_with_info (.ExpectedItem "external specifier" "external")
          { help := some "The external specifier must be a string literal",
            note := some "External specifiers are used to specify the data that is being imported from an external source",
            see := some "https://snowball-lang.gitbook.io/docs/language-reference/external-specifier" })) := by
  have hne : ¬ p.token.type = t := by
    rw [hx]
    exact fun hh => ht hh.symm
  refine ⟨fun lk hstr => ⟨fun p2 p3 hn2 ha => ?_, fun p2 p3 hn2 ha => ?_⟩,
    fun s hstr hC hS hY => ?_, fun hnostr => ?_⟩
  · rw [Parser.parse_global_loop, if_neg hne, hx]
    try dsimp only
    split
    · rename_i hne0
      rw [hn] at hne0
      cases hne0
    · rename_i p1' hne0
      rw [hn] at hne0
      cases hne0
      rw [hstr]
      try dsimp only
      cases lk
      case C =>
        rw [show ExternalLinkage.C.specifier = "C" from rfl, if_pos rfl]
        try dsimp only
        split
        · rename_i hne2
          rw [hn2] at hne2
          cases hne2
        · rename_i p2' hne2
          rw [hn2] at hne2
          cases hne2
          try dsimp only
          split
          · rename_i p3' ha'
            rw [ha] at ha'
            cases ha'
            rfl
          · rename_i p3' ha'
            rw [ha] at ha'
            cases ha'
      case Snowball =>
        rw [show ExternalLinkage.Snowball.specifier = "snowball" from rfl,
          if_neg (by decide), if_pos rfl]
        try dsimp only
        split
        · rename_i hne2
          rw [hn2] at hne2
          cases hne2
        · rename_i p2' hne2
          rw [hn2] at hne2
          cases hne2
          try dsimp only
          split
          · rename_i p3' ha'
            rw [ha] at ha'
            cases ha'
            rfl
          · rename_i p3' ha'
            rw [ha] at ha'
            cases ha'
      case System =>
        rw [show ExternalLinkage.System.specifier = "system" from rfl,
          if_neg (by decide), if_neg (by decide), if_pos rfl]
        try dsimp only
        split
        · rename_i hne2
          rw [hn2] at hne2
          cases hne2
        · rename_i p2' hne2
          rw [hn2] at hne2
          cases hne2
          try dsimp only
          split
          · rename_i p3' ha'
            rw [ha] at ha'
            cases ha'
            rfl
          · rename_i p3' ha'
            rw [ha] at ha'
            cases ha'
  · rw [Parser.parse_global_loop, if_neg hne, hx]
    try dsimp only
    split
    · rename_i hne0
      rw [hn] at hne0
      cases hne0
    · rename_i p1' hne0
      rw [hn] at hne0
      cases hne0
      rw [hstr]
      try dsimp only
      cases lk
      case C =>
        rw [show ExternalLinkage.C.specifier = "C" from rfl, if_pos rfl]
        try dsimp only
        split
        · rename_i hne2
          rw [hn2] at hne2
          cases hne2
        · rename_i p2' hne2
          rw [hn2] at hne2
          cases hne2
          try dsimp only
          split
          · rename_i p3' ha'
            rw [ha] at ha'
            cases ha'
          · rename_i p3' ha'
            rw [ha] at ha'
            cases ha'
            rfl
      case Snowball =>
        rw [show ExternalLinkage.Snowball.specifier = "snowball" from rfl,
          if_neg (by decide), if_pos rfl]
        try dsimp only
        split
        · rename_i hne2
          rw [hn2] at hne2
          cases hne2
        · rename_i p2' hne2
          rw [hn2] at hne2
          cases hne2
          try dsimp only
          split
          · rename_i p3' ha'
            rw [ha] at ha'
            cases ha'
          · rename_i p3' ha'
            rw [ha] at ha'
            cases ha'
            rfl
      case System =>
        rw [show ExternalLinkage.System.specifier = "system" from rfl,
          if_neg (by decide), if_neg (by decide), if_pos rfl]
        try dsimp only
        split
        · rename_i hne2
          rw [hn2] at hne2
          cases hne2
        · rename_i p2' hne2
          rw [hn2] at hne2
          cases hne2
          try dsimp only
          split
          · rename_i p3' ha'
            rw [ha] at ha'
            cases ha'
          · rename_i p3' ha'
            rw [ha] at ha'
            cases ha'
            rfl
  · rw [Parser.parse_global_loop, if_neg hne, hx]
    try dsimp only
    split
    · rename_i hne0
      rw [hn] at hne0
      cases hne0
    · rename_i p1' hne0
      rw [hn] at hne0
      cases hne0
      rw [hstr]
      try dsimp only
      rw [if_neg hC, if_neg hS, if_neg hY]
  · rw [Parser.parse_global_loop, if_neg hne, hx]
    try dsimp only
    split
    · rename_i hne0
      rw [hn] at hne0
      cases hne0
    · rename_i p1' hne0
      rw [hn] at hne0
      cases hne0
      split
      · rename_i data hstr
        exact absurd hstr (hnostr data)
      · rfl

theorem external_specifier_behavior_witness :
    (⟨[⟨.External, "external", 0⟩, ⟨.String "C", "C", 1⟩, ⟨.Fn, "fn", 2⟩], 0,
        ⟨.External, "external", 0⟩, []⟩ : Parser).parse_global_loop .EOF AttrHandler.new =
      (⟨[⟨.External, "external", 0⟩, ⟨.String "C", "C", 1⟩, ⟨.Fn, "fn", 2⟩], 2,
        ⟨.Fn, "fn", 2⟩, []⟩ : Parser).parse_global_loop .EOF
        (AttrHandler.new.add_attr (.External .C)) :=
  ((external_specifier_behavior _
      ⟨[⟨.External, "external", 0⟩, ⟨.String "C", "C", 1⟩, ⟨.Fn, "fn", 2⟩], 1,
        ⟨.String "C", "C", 1⟩, []⟩ _ _ rfl (by decide) (by decide)).1 .C rfl).2
    ⟨[⟨.External, "external", 0⟩, ⟨.String "C", "C", 1⟩, ⟨.Fn, "fn", 2⟩], 2,
        ⟨.Fn, "fn", 2⟩, []⟩ _ (by decide) rfl

theorem keyword_is_start (u : ModUnit) : u.keyword.is_global_item_start = true := by
  cases u <;> rfl

theorem new_atTokens {ts : List Token} {p : Parser} (h : Parser.new ts = some p) :
    AtTokens p ts ∧ p.reports = [] := by
  cases ts with
  | nil => cases h
  | cons tok ts' =>
    cases h
    exact ⟨⟨rfl, rfl⟩, rfl⟩

theorem atTokens_token {p : Parser} {x : Token} {l : List Token}
    (h : AtTokens p (x :: l)) : p.token = x := by
  obtain ⟨-, hh⟩ := h
  exact (Option.some.inj hh).symm

theorem atTokens_next {p : Parser} {x y : Token} {l : List Token}
    (h : AtTokens p (x :: y :: l)) :
    ∃ q, p.next = some q ∧ AtTokens q (y :: l) ∧ q.tokens = p.tokens ∧
      q.reports = p.reports ∧ q.token = y := by
  obtain ⟨hd, hh⟩ := h
  have hlen : p.token_index + 1 < p.tokens.length := by
    have hl := congrArg List.length hd
    rw [List.length_drop] at hl
    simp only [List.length_cons] at hl
    omega
  have hdrop1 : p.tokens.drop (p.token_index + 1) = y :: l := by
    have hdd : p.tokens.drop (p.token_index + 1) = (p.tokens.drop p.token_index).drop 1 := by
      rw [List.drop_drop]
    rw [hdd, hd]
    rfl
  have htok : p.tokens.get ⟨p.token_index + 1, hlen⟩ = y := by
    have h2 := List.drop_eq_getElem_cons hlen
    rw [hdrop1] at h2
    injection h2 with h2a h2b
    rw [List.get_eq_getElem]
    exact h2a.symm
  refine ⟨⟨p.tokens, p.token_index + 1, p.tokens.get ⟨p.token_index + 1, hlen⟩, p.reports⟩,
    ?_, ⟨hdrop1, ?_⟩, rfl, rfl, htok⟩
  · unfold Parser.next
    rw [dif_pos hlen]
  · rw [htok]
    rfl

theorem unitTokens_shape {u : ModUnit} {l : List Token} (h : UnitTokens u l) :
    ∃ tk tl, l = tk :: tl ∧ tk.type = u.keyword := by
  cases u with
  | External lk =>
    obtain ⟨t1, t2, rfl, h1, h2⟩ := h
    exact ⟨t1, [t2], rfl, h1⟩
  | Public => obtain ⟨t1, rfl, h1⟩ := h; exact ⟨t1, [], rfl, h1⟩
  | Private => obtain ⟨t1, rfl, h1⟩ := h; exact ⟨t1, [], rfl, h1⟩
  | Static => obtain ⟨t1, rfl, h1⟩ := h; exact ⟨t1, [], rfl, h1⟩
  | Inline => obtain ⟨t1, rfl, h1⟩ := h; exact ⟨t1, [], rfl, h1⟩
  | Abstract => obtain ⟨t1, rfl, h1⟩ := h; exact ⟨t1, [], rfl, h1⟩
  | Final => obtain ⟨t1, rfl, h1⟩ := h; exact ⟨t1, [], rfl, h1⟩

theorem drop_length_eq {p q : Parser}
    (hd : p.tokens.drop p.token_index = q.tokens.drop q.token_index) :
    p.tokens.length - p.token_index = q.tokens.length - q.token_index := by
  have hl := congrArg List.length hd
  rw [List.length_drop, List.length_drop] at hl
  exact hl

theorem next_some_congr {p q p1 q1 : Parser}
    (hd : p.tokens.drop p.token_index = q.tokens.drop q.token_index)
    (hp1 : p.next = some p1) (hq1 : q.next = some q1) :
    p1.tokens.drop p1.token_index = q1.tokens.drop q1.token_index ∧ q1.token = p1.token ∧
    p1.tokens.length - p1.token_index < p.tokens.length - p.token_index := by
  obtain ⟨hpts, hpidx, -, hplt, hptok⟩ := next_eq_some_fields hp1
  obtain ⟨hqts, hqidx, -, hqlt, hqtok⟩ := next_eq_some_fields hq1
  have hpd : p1.tokens.drop p1.token_index = (p.tokens.drop p.token_index).drop 1 := by
    rw [hpts, hpidx, List.drop_drop]
  have hqd : q1.tokens.drop q1.token_index = (q.tokens.drop q.token_index).drop 1 := by
    rw [hqts, hqidx, List.drop_drop]
  have e1 : p.tokens.drop (p.token_index + 1) = q.tokens.drop (q.token_index + 1) := by
    have hp' : p.tokens.drop (p.token_index + 1) = (p.tokens.drop p.token_index).drop 1 := by
      rw [List.drop_drop]
    have hq' : q.tokens.drop (q.token_index + 1) = (q.tokens.drop q.token_index).drop 1 := by
      rw [List.drop_drop]
    rw [hp', hq', hd]
  have hp2 := List.drop_eq_getElem_cons hplt
  have hq2 := List.drop_eq_getElem_cons hqlt
  rw [e1, hq2] at hp2
  injection hp2 with hh ht2
  refine ⟨?_, ?_, ?_⟩
  · rw [hpd, hqd, hd]
  · rw [hqtok, hptok, List.get_eq_getElem, List.get_eq_getElem]
    exact hh
  · rw [hpts, hpidx]
    omega

theorem loop_unit_step {u : ModUnit} {ts1 : List Token} (hu : UnitTokens u ts1)
    {p : Parser} {I : Token} {rest : List Token}
    (hat : AtTokens p (ts1 ++ I :: rest)) {t : TokenType} (hne : t ≠ u.keyword)
    (a : AttrHandler) :
    ∃ p', AtTokens p' (I :: rest) ∧ p'.tokens = p.tokens ∧ p'.reports = p.reports ∧
      p'.token = I ∧
      (I.type.is_global_item_start = true →
        p.parse_global_loop t a = p'.parse_global_loop t (a.add_attr u.attr)) ∧
      (I.type.is_global_item_start = false →
        p.parse_global_loop t a =
          .err (p'.report_with_info (.ExpectedItem "global item" u.name)
            { help := some "There are only a few items that can be declared at the global scope",
              see := some "https://snowball-lang.gitbook.io/docs/language-reference/global-scope" })) := by
  cases u with
  | Public =>
    obtain ⟨t1, rfl, htk1⟩ := hu
    have hptok := atTokens_token hat
    obtain ⟨q, hn, hatq, hqt, hqr, hqtok⟩ := atTokens_next hat
    refine ⟨q, hatq, hqt, hqr, hqtok, fun hstart => ?_, fun hstart => ?_⟩
    · have hne' : ¬ p.token.type = t := by
        rw [hptok, htk1]
        exact fun hh => hne hh.symm
      rw [Parser.parse_global_loop, if_neg hne',
        show p.token.type = TokenType.Public from by rw [hptok]; exact htk1]
      try dsimp only
      split
      · rename_i h0
        rw [hn] at h0
        cases h0
      · rename_i q' h0
        rw [hn] at h0
        cases h0
        try dsimp only
        split
        · rename_i p2 ha'
          rw [assert_of_start q _ (by rw [hqtok]; exact hstart)] at ha'
          cases ha'
        · rename_i p2 ha'
          rw [assert_of_start q _ (by rw [hqtok]; exact hstart)] at ha'
          cases ha'
          rfl
    · have hne' : ¬ p.token.type = t := by
        rw [hptok, htk1]
        exact fun hh => hne hh.symm
      rw [Parser.parse_global_loop, if_neg hne',
        show p.token.type = TokenType.Public from by rw [hptok]; exact htk1]
      try dsimp only
      split
      · rename_i h0
        rw [hn] at h0
        cases h0
      · rename_i q' h0
        rw [hn] at h0
        cases h0
        try dsimp only
        split
        · rename_i p2 ha'
          rw [assert_of_not_start q _ (by rw [hqtok]; exact hstart)] at ha'
          cases ha'
          rfl
        · rename_i p2 ha'
          rw [assert_of_not_start q _ (by rw [hqtok]; exact hstart)] at ha'
          cases ha'
  | Private =>
    obtain ⟨t1, rfl, htk1⟩ := hu
    have hptok := atTokens_token hat
    obtain ⟨q, hn, hatq, hqt, hqr, hqtok⟩ := atTokens_next hat
    refine ⟨q, hatq, hqt, hqr, hqtok, fun hstart => ?_, fun hstart => ?_⟩
    · have hne' : ¬ p.token.type = t := by
        rw [hptok, htk1]
        exact fun hh => hne hh.symm
      rw [Parser.parse_global_loop, if_neg hne',
        show p.token.type = TokenType.Private from by rw [hptok]; exact htk1]
      try dsimp only
      split
      · rename_i h0
        rw [hn] at h0
        cases h0
      · rename_i q' h0
        rw [hn] at h0
        cases h0
        try dsimp only
        split
        · rename_i p2 ha'
          rw [assert_of_start q _ (by rw [hqtok]; exact hstart)] at ha'
          cases ha'
        · rename_i p2 ha'
          rw [assert_of_start q _ (by rw [hqtok]; exact hstart)] at ha'
          cases ha'
          rfl
    · have hne' : ¬ p.token.type = t := by
        rw [hptok, htk1]
        exact fun hh => hne hh.symm
      rw [Parser.parse_global_loop, if_neg hne',
        show p.token.type = TokenType.Private from by rw [hptok]; exact htk1]
      try dsimp only
      split
      · rename_i h0
        rw [hn] at h0
        cases h0
      · rename_i q' h0
        rw [hn] at h0
        cases h0
        try dsimp only
        split
        · rename_i p2 ha'
          rw [assert_of_not_start q _ (by rw [hqtok]; exact hstart)] at ha'
          cases ha'
          rfl
        · rename_i p2 ha'
          rw [assert_of_not_start q _ (by rw [hqtok]; exact hstart)] at ha'
          cases ha'
  | Static =>
    obtain ⟨t1, rfl, htk1⟩ := hu
    have hptok := atTokens_token hat
    obtain ⟨q, hn, hatq, hqt, hqr, hqtok⟩ := atTokens_next hat
    refine ⟨q, hatq, hqt, hqr, hqtok, fun hstart => ?_, fun hstart => ?_⟩
    · have hne' : ¬ p.token.type = t := by
        rw [hptok, htk1]
        exact fun hh => hne hh.symm
      rw [Parser.parse_global_loop, if_neg hne',
        show p.token.type = TokenType.Static from by rw [hptok]; exact htk1]
      try dsimp only
      split
      · rename_i h0
        rw [hn] at h0
        cases h0
      · rename_i q' h0
        rw [hn] at h0
        cases h0
        try dsimp only
        split
        · rename_i p2 ha'
          rw [assert_of_start q _ (by rw [hqtok]; exact hstart)] at ha'
          cases ha'
        · rename_i p2 ha'
          rw [assert_of_start q _ (by rw [hqtok]; exact hstart)] at ha'
          cases ha'
          rfl
    · have hne' : ¬ p.token.type = t := by
        rw [hptok, htk1]
        exact fun hh => hne hh.symm
      rw [Parser.parse_global_loop, if_neg hne',
        show p.token.type = TokenType.Static from by rw [hptok]; exact htk1]
      try dsimp only
      split
      · rename_i h0
        rw [hn] at h0
        cases h0
      · rename_i q' h0
        rw [hn] at h0
        cases h0
        try dsimp only
        split
        · rename_i p2 ha'
          rw [assert_of_not_start q _ (by rw [hqtok]; exact hstart)] at ha'
          cases ha'
          rfl
        · rename_i p2 ha'
          rw [assert_of_not_start q _ (by rw [hqtok]; exact hstart)] at ha'
          cases ha'
  | Inline =>
    obtain ⟨t1, rfl, htk1⟩ := hu
    have hptok := atTokens_token hat
    obtain ⟨q, hn, hatq, hqt, hqr, hqtok⟩ := atTokens_next hat
    refine ⟨q, hatq, hqt, hqr, hqtok, fun hstart => ?_, fun hstart => ?_⟩
    · have hne' : ¬ p.token.type = t := by
        rw [hptok, htk1]
        exact fun hh => hne hh.symm
      rw [Parser.parse_global_loop, if_neg hne',
        show p.token.type = TokenType.Inline from by rw [hptok]; exact htk1]
      try dsimp only
      split
      · rename_i h0
        rw [hn] at h0
        cases h0
      · rename_i q' h0
        rw [hn] at h0
        cases h0
        try dsimp only
        split
        · rename_i p2 ha'
          rw [assert_of_start q _ (by rw [hqtok]; exact hstart)] at ha'
          cases ha'
        · rename_i p2 ha'
          rw [assert_of_start q _ (by rw [hqtok]; exact hstart)] at ha'
          cases ha'
          rfl
    · have hne' : ¬ p.token.type = t := by
        rw [hptok, htk1]
        exact fun hh => hne hh.symm
      rw [Parser.parse_global_loop, if_neg hne',
        show p.token.type = TokenType.Inline from by rw [hptok]; exact htk1]
      try dsimp only
      split
      · rename_i h0
        rw [hn] at h0
        cases h0
      · rename_i q' h0
        rw [hn] at h0
        cases h0
        try dsimp only
        split
        · rename_i p2 ha'
          rw [assert_of_not_start q _ (by rw [hqtok]; exact hstart)] at ha'
          cases ha'
          rfl
        · rename_i p2 ha'
          rw [assert_of_not_start q _ (by rw [hqtok]; exact hstart)] at ha'
          cases ha'
  | Abstract =>
    obtain ⟨t1, rfl, htk1⟩ := hu
    have hptok := atTokens_token hat
    obtain ⟨q, hn, hatq, hqt, hqr, hqtok⟩ := atTokens_next hat
    refine ⟨q, hatq, hqt, hqr, hqtok, fun hstart => ?_, fun hstart => ?_⟩
    · have hne' : ¬ p.token.type = t := by
        rw [hptok, htk1]
        exact fun hh => hne hh.symm
      rw [Parser.parse_global_loop, if_neg hne',
        show p.token.type = TokenType.Abstract from by rw [hptok]; exact htk1]
      try dsimp only
      split
      · rename_i h0
        rw [hn] at h0
        cases h0
      · rename_i q' h0
        rw [hn] at h0
        cases h0
        try dsimp only
        split
        · rename_i p2 ha'
          rw [assert_of_start q _ (by rw [hqtok]; exact hstart)] at ha'
          cases ha'
        · rename_i p2 ha'
          rw [assert_of_start q _ (by rw [hqtok]; exact hstart)] at ha'
          cases ha'
          rfl
    · have hne' : ¬ p.token.type = t := by
        rw [hptok, htk1]
        exact fun hh => hne hh.symm
      rw [Parser.parse_global_loop, if_neg hne',
        show p.token.type = TokenType.Abstract from by rw [hptok]; exact htk1]
      try dsimp only
      split
      · rename_i h0
        rw [hn] at h0
        cases h0
      · rename_i q' h0
        rw [hn] at h0
        cases h0
        try dsimp only
        split
        · rename_i p2 ha'
          rw [assert_of_not_start q _ (by rw [hqtok]; exact hstart)] at ha'
          cases ha'
          rfl
        · rename_i p2 ha'
          rw [assert_of_not_start q _ (by rw [hqtok]; exact hstart)] at ha'
          cases ha'
  | Final =>
    obtain ⟨t1, rfl, htk1⟩ := hu
    have hptok := atTokens_token hat
    obtain ⟨q, hn, hatq, hqt, hqr, hqtok⟩ := atTokens_next hat
    refine ⟨q, hatq, hqt, hqr, hqtok, fun hstart => ?_, fun hstart => ?_⟩
    · have hne' : ¬ p.token.type = t := by
        rw [hptok, htk1]
        exact fun hh => hne hh.symm
      rw [Parser.parse_global_loop, if_neg hne',
        show p.token.type = TokenType.Final from by rw [hptok]; exact htk1]
      try dsimp only
      split
      · rename_i h0
        rw [hn] at h0
        cases h0
      · rename_i q' h0
        rw [hn] at h0
        cases h0
        try dsimp only
        split
        · rename_i p2 ha'
          rw [assert_of_start q _ (by rw [hqtok]; exact hstart)] at ha'
          cases ha'
        · rename_i p2 ha'
          rw [assert_of_start q _ (by rw [hqtok]; exact hstart)] at ha'
          cases ha'
          rfl
    · have hne' : ¬ p.token.type = t := by
        rw [hptok, htk1]
        exact fun hh => hne hh.symm
      rw [Parser.parse_global_loop, if_neg hne',
        show p.token.type = TokenType.Final from by rw [hptok]; exact htk1]
      try dsimp only
      split
      · rename_i h0
        rw [hn] at h0
        cases h0
      · rename_i q' h0
        rw [hn] at h0
        cases h0
        try dsimp only
        split
        · rename_i p2 ha'
          rw [assert_of_not_start q _ (by rw [hqtok]; exact hstart)] at ha'
          cases ha'
          rfl
        · rename_i p2 ha'
          rw [assert_of_not_start q _ (by rw [hqtok]; exact hstart)] at ha'
          cases ha'
  | External lk =>
    obtain ⟨t1, t2, rfl, htk1, htk2⟩ := hu
    have hptok := atTokens_token hat
    obtain ⟨q1, hn, hatq1, hq1t, hq1r, hq1tok⟩ := atTokens_next hat
    obtain ⟨q2, hn2, hatq2, hq2t, hq2r, hq2tok⟩ := atTokens_next hatq1
    refine ⟨q2, hatq2, hq2t.trans hq1t, hq2r.trans hq1r, hq2tok,
      fun hstart => ?_, fun hstart => ?_⟩
    · have hne' : ¬ p.token.type = t := by
        rw [hptok, htk1]
        exact fun hh => hne hh.symm
      rw [Parser.parse_global_loop, if_neg hne',
        show p.token.type = TokenType.External from by rw [hptok]; exact htk1]
      try dsimp only
      split
      · rename_i h0
        rw [hn] at h0
        cases h0
      · rename_i q' h0
        rw [hn] at h0
        cases h0
        rw [show q1.token.type = TokenType.String lk.specifier from by
          rw [hq1tok]; exact htk2]
        try dsimp only
        cases lk
        case C =>
          rw [show ExternalLinkage.C.specifier = "C" from rfl, if_pos rfl]
          try dsimp only
          split
          · rename_i h1
            rw [hn2] at h1
            cases h1
          · rename_i q'' h1
            rw [hn2] at h1
            cases h1
            try dsimp only
            split
            · rename_i p2' ha'
              rw [assert_of_start q2 _ (by rw [hq2tok]; exact hstart)] at ha'
              cases ha'
            · rename_i p2' ha'
              rw [assert_of_start q2 _ (by rw [hq2tok]; exact hstart)] at ha'
              cases ha'
              rfl
        case Snowball =>
          rw [show ExternalLinkage.Snowball.specifier = "snowball" from rfl,
            if_neg (by decide), if_pos rfl]
          try dsimp only
          split
          · rename_i h1
            rw [hn2] at h1
            cases h1
          · rename_i q'' h1
            rw [hn2] at h1
            cases h1
            try dsimp only
            split
            · rename_i p2' ha'
              rw [assert_of_start q2 _ (by rw [hq2tok]; exact hstart)] at ha'
              cases ha'
            · rename_i p2' ha'
              rw [assert_of_start q2 _ (by rw [hq2tok]; exact hstart)] at ha'
              cases ha'
              rfl
        case System =>
          rw [show ExternalLinkage.System.specifier = "system" from rfl,
            if_neg (by decide), if_neg (by decide), if_pos rfl]
          try dsimp only
          split
          · rename_i h1
            rw [hn2] at h1
            cases h1
          · rename_i q'' h1
            rw [hn2] at h1
            cases h1
            try dsimp only
            split
            · rename_i p2' ha'
              rw [assert_of_start q2 _ (by rw [hq2tok]; exact hstart)] at ha'
              cases ha'
            · rename_i p2' ha'
              rw [assert_of_start q2 _ (by rw [hq2tok]; exact hstart)] at ha'
              cases ha'
              rfl
    · have hne' : ¬ p.token.type = t := by
        rw [hptok, htk1]
        exact fun hh => hne hh.symm
      rw [Parser.parse_global_loop, if_neg hne',
        show p.token.type = TokenType.External from by rw [hptok]; exact htk1]
      try dsimp only
      split
      · rename_i h0
        rw [hn] at h0
        cases h0
      · rename_i q' h0
        rw [hn] at h0
        cases h0
        rw [show q1.token.type = TokenType.String lk.specifier from by
          rw [hq1tok]; exact htk2]
        try dsimp only
        cases lk
        case C =>
          rw [show ExternalLinkage.C.specifier = "C" from rfl, if_pos rfl]
          try dsimp only
          split
          · rename_i h1
            rw [hn2] at h1
            cases h1
          · rename_i q'' h1
            rw [hn2] at h1
            cases h1
            try dsimp only
            split
            · rename_i p2' ha'
              rw [assert_of_not_start q2 _ (by rw [hq2tok]; exact hstart)] at ha'
              cases ha'
              rfl
            · rename_i p2' ha'
              rw [assert_of_not_start q2 _ (by rw [hq2tok]; exact hstart)] at ha'
              cases ha'
        case Snowball =>
          rw [show ExternalLinkage.Snowball.specifier = "snowball" from rfl,
            if_neg (by decide), if_pos rfl]
          try dsimp only
          split
          · rename_i h1
            rw [hn2] at h1
            cases h1
          · rename_i q'' h1
            rw [hn2] at h1
            cases h1
            try dsimp only
            split
            · rename_i p2' ha'
              rw [assert_of_not_start q2 _ (by rw [hq2tok]; exact hstart)] at ha'
              cases ha'
              rfl
            · rename_i p2' ha'
              rw [assert_of_not_start q2 _ (by rw [hq2tok]; exact hstart)] at ha'
              cases ha'
        case System =>
          rw [show ExternalLinkage.System.specifier = "system" from rfl,
            if_neg (by decide), if_neg (by decide), if_pos rfl]
          try dsimp only
          split
          · rename_i h1
            rw [hn2] at h1
            cases h1
          · rename_i q'' h1
            rw [hn2] at h1
            cases h1
            try dsimp only
            split
            · rename_i p2' ha'
              rw [assert_of_not_start q2 _ (by rw [hq2tok]; exact hstart)] at ha'
              cases ha'
              rfl
            · rename_i p2' ha'
              rw [assert_of_not_start q2 _ (by rw [hq2tok]; exact hstart)] at ha'
              cases ha'

theorem loop_prefix_run {us : List ModUnit} {ts : List Token} (h : PrefixTokens us ts)
    {I : Token} {rest : List Token} {t : TokenType} :
    ∀ (p : Parser) (a : AttrHandler), (∀ u ∈ us, t ≠ u.keyword) →
    AtTokens p (ts ++ I :: rest) →
    ∃ p', AtTokens p' (I :: rest) ∧ p'.tokens = p.tokens ∧ p'.reports = p.reports ∧
      p'.token = I ∧
      (I.type.is_global_item_start = true →
        p.parse_global_loop t a =
          p'.parse_global_loop t ⟨a.attrs ++ us.map ModUnit.attr⟩) ∧
      (I.type.is_global_item_start = false → ∀ ulast, us.getLast? = some ulast →
        p.parse_global_loop t a =
          .err (p'.report_with_info (.ExpectedItem "global item" ulast.name)
            { help := some "There are only a few items that can be declared at the global scope",
              see := some "https://snowball-lang.gitbook.io/docs/language-reference/global-scope" })) := by
  induction h with
  | nil =>
    intro p a hts hat
    refine ⟨p, hat, rfl, rfl, atTokens_token hat, fun hstart => ?_, fun hstart ulast hul => ?_⟩
    · have ha0 : (⟨a.attrs ++ List.map ModUnit.attr []⟩ : AttrHandler) = a := by
        cases a
        simp
      rw [ha0]
    · simp at hul
  | cons hu hrest ih =>
    rename_i u us' ts1 ts2
    intro p a hts hat
    rw [List.append_assoc] at hat
    cases hrest with
    | nil =>
      have hA := loop_unit_step hu (by simpa using hat) (hts u (List.mem_cons_self u _)) a
      obtain ⟨p', h1, h2, h3, h4, h5, h6⟩ := hA
      refine ⟨p', h1, h2, h3, h4, fun hstart => ?_, fun hstart ulast hul => ?_⟩
      · rw [h5 hstart]
        rfl
      · have hul' : ulast = u := by simpa using hul.symm
        subst hul'
        exact h6 hstart
    | cons hu2 hrest2 =>
      rename_i u2 us'' ts2a ts2b
      obtain ⟨tk2, tl2, rfl, htk2⟩ := unitTokens_shape hu2
      have hat' : AtTokens p (ts1 ++ tk2 :: (tl2 ++ (ts2b ++ I :: rest))) := by
        simpa [List.append_assoc] using hat
      have hA := loop_unit_step hu hat' (hts u (List.mem_cons_self u _)) a
      obtain ⟨p'', h1, h2, h3, h4, h5, h6⟩ := hA
      have hstep := h5 (by rw [htk2]; exact keyword_is_start u2)
      have hat'' : AtTokens p'' ((tk2 :: tl2) ++ ts2b ++ I :: rest) := by
        simpa [List.append_assoc] using h1
      have hih := ih p'' (a.add_attr u.attr)
        (fun v hv => hts v (List.mem_cons_of_mem _ hv)) hat''
      obtain ⟨p', g1, g2, g3, g4, g5, g6⟩ := hih
      refine ⟨p', g1, g2.trans h2, g3.trans h3, g4, fun hstart => ?_,
        fun hstart ulast hul => ?_⟩
      · rw [hstep, g5 hstart]
        congr 1
        simp [AttrHandler.add_attr]
      · have hul' : (u2 :: us'').getLast? = some ulast := by
          rw [← List.getLast?_cons_cons]
          exact hul
        rw [hstep, g6 hstart ulast hul']

theorem loop_prefix_early {us : List ModUnit} {ts : List Token} (h : PrefixTokens us ts)
    {I : Token} {rest : List Token} {t : TokenType} :
    ∀ (p : Parser) (a : AttrHandler), (∃ u ∈ us, t = u.keyword) →
    AtTokens p (ts ++ I :: rest) →
    ∃ p' a', p.parse_global_loop t a = .ok p' a' := by
  induction h with
  | nil =>
    intro p a hmem hat
    obtain ⟨u, hu, -⟩ := hmem
    simp at hu
  | cons hu hrest ih =>
    rename_i u us' ts1 ts2
    intro p a hmem hat
    rw [List.append_assoc] at hat
    obtain ⟨tk1, tl1, rfl, htk1⟩ := unitTokens_shape hu
    by_cases hk : t = u.keyword
    · have hptok : p.token = tk1 := atTokens_token (by simpa using hat)
      refine ⟨p, a, ?_⟩
      rw [Parser.parse_global_loop, if_pos (by rw [hptok, htk1]; exact hk.symm)]
    · have hmem' : ∃ v ∈ us', t = v.keyword := by
        obtain ⟨v, hv, hveq⟩ := hmem
        cases List.mem_cons.mp hv with
        | inl h0 => exact absurd (h0 ▸ hveq) hk
        | inr h0 => exact ⟨v, h0, hveq⟩
      cases hrest with
      | nil =>
        obtain ⟨v, hv, -⟩ := hmem'
        simp at hv
      | cons hu2 hrest2 =>
        rename_i u2 us'' ts2a ts2b
        obtain ⟨tk2, tl2, rfl, htk2⟩ := unitTokens_shape hu2
        have hat' : AtTokens p ((tk1 :: tl1) ++ tk2 :: (tl2 ++ (ts2b ++ I :: rest))) := by
          simpa [List.append_assoc] using hat
        have hA := loop_unit_step hu hat' hk a
        obtain ⟨p'', h1, -, -, -, h5, -⟩ := hA
        have hstep := h5 (by rw [htk2]; exact keyword_is_start u2)
        have hat'' : AtTokens p'' ((tk2 :: tl2) ++ ts2b ++ I :: rest) := by
          simpa [List.append_assoc] using h1
        obtain ⟨p', a', hok⟩ := ih p'' (a.add_attr u.attr) hmem' hat''
        exact ⟨p', a', by rw [hstep, hok]⟩

theorem loop_terminator (p : Parser) (t : TokenType) (a : AttrHandler)
    (h : p.token.type = t) : p.parse_global_loop t a = .ok p a := by
  rw [Parser.parse_global_loop, if_pos h]

theorem loop_eof (p : Parser) (t : TokenType) (a : AttrHandler)
    (hterm : ¬ p.token.type = t) (hx : p.token.type = .EOF) :
    p.parse_global_loop t a = .err (p.report .UnexpectedEOF) := by
  rw [Parser.parse_global_loop, if_neg hterm, hx]

theorem loop_default (p : Parser) (t : TokenType) (a : AttrHandler)
    (hterm : ¬ p.token.type = t)
    (h2 : p.token.type ≠ .EOF)
    (h3 : p.token.type ≠ .Public) (h4 : p.token.type ≠ .Private)
    (h5 : p.token.type ≠ .Static) (h6 : p.token.type ≠ .Inline)
    (h7 : p.token.type ≠ .External) (h8 : p.token.type ≠ .Abstract)
    (h9 : p.token.type ≠ .Final) :
    p.parse_global_loop t a = .err (p.report (.UnexpectedToken p.token.value)) := by
  rw [Parser.parse_global_loop]
  rcases htk : p.token.type <;> simp_all

theorem loop_plain_next_none (u : ModUnit) (hup : ∀ lk, u ≠ .External lk)
    {p : Parser} {t : TokenType} (a : AttrHandler)
    (hterm : ¬ p.token.type = t) (hx : p.token.type = u.keyword) (h0 : p.next = none) :
    p.parse_global_loop t a = .panicked := by
  cases u with
  | External lk => exact absurd rfl (hup lk)
  | Public =>
    rw [Parser.parse_global_loop, if_neg hterm, show p.token.type = TokenType.Public from hx]
    try dsimp only
    split
    · rfl
    · rename_i p1 h1
      rw [h0] at h1
      cases h1
  | Private =>
    rw [Parser.parse_global_loop, if_neg hterm, show p.token.type = TokenType.Private from hx]
    try dsimp only
    split
    · rfl
    · rename_i p1 h1
      rw [h0] at h1
      cases h1
  | Static =>
    rw [Parser.parse_global_loop, if_neg hterm, show p.token.type = TokenType.Static from hx]
    try dsimp only
    split
    · rfl
    · rename_i p1 h1
      rw [h0] at h1
      cases h1
  | Inline =>
    rw [Parser.parse_global_loop, if_neg hterm, show p.token.type = TokenType.Inline from hx]
    try dsimp only
    split
    · rfl
    · rename_i p1 h1
      rw [h0] at h1
      cases h1
  | Abstract =>
    rw [Parser.parse_global_loop, if_neg hterm, show p.token.type = TokenType.Abstract from hx]
    try dsimp only
    split
    · rfl
    · rename_i p1 h1
      rw [h0] at h1
      cases h1
  | Final =>
    rw [Parser.parse_global_loop, if_neg hterm, show p.token.type = TokenType.Final from hx]
    try dsimp only
    split
    · rfl
    · rename_i p1 h1
      rw [h0] at h1
      cases h1

theorem loop_plain_step (u : ModUnit) (hup : ∀ lk, u ≠ .External lk)
    {p p1 : Parser} {t : TokenType} (a : AttrHandler)
    (hterm : ¬ p.token.type = t) (hx : p.token.type = u.keyword) (hn : p.next = some p1) :
    (∀ p2, p1.assert_global_item_next u.name = .err p2 →
      p.parse_global_loop t a = .err p2) ∧
    (∀ p2, p1.assert_global_item_next u.name = .ok p2 →
      p.parse_global_loop t a = p2.parse_global_loop t (a.add_attr u.attr)) := by
  cases u with
  | External lk => exact absurd rfl (hup lk)
  | Public =>
    refine ⟨fun p2 ha => ?_, fun p2 ha => ?_⟩
    · simp only [ModUnit.name] at ha
      rw [Parser.parse_global_loop, if_neg hterm, show p.token.type = TokenType.Public from hx]
      try dsimp only
      split
      · rename_i h1
        rw [hn] at h1
        cases h1
      · rename_i p1' h1
        rw [hn] at h1
        cases h1
        try dsimp only
        split
        · rename_i p2' ha'
          rw [ha] at ha'
          cases ha'
          rfl
        · rename_i p2' ha'
          rw [ha] at ha'
          cases ha'
    · simp only [ModUnit.name] at ha
      rw [Parser.parse_global_loop, if_neg hterm, show p.token.type = TokenType.Public from hx]
      try dsimp only
      split
      · rename_i h1
        rw [hn] at h1
        cases h1
      · rename_i p1' h1
        rw [hn] at h1
        cases h1
        try dsimp only
        split
        · rename_i p2' ha'
          rw [ha] at ha'
          cases ha'
        · rename_i p2' ha'
          rw [ha] at ha'
          cases ha'
          try dsimp only
          try rfl
  | Private =>
    refine ⟨fun p2 ha => ?_, fun p2 ha => ?_⟩
    · simp only [ModUnit.name] at ha
      rw [Parser.parse_global_loop, if_neg hterm, show p.token.type = TokenType.Private from hx]
      try dsimp only
      split
      · rename_i h1
        rw [hn] at h1
        cases h1
      · rename_i p1' h1
        rw [hn] at h1
        cases h1
        try dsimp only
        split
        · rename_i p2' ha'
          rw [ha] at ha'
          cases ha'
          rfl
        · rename_i p2' ha'
          rw [ha] at ha'
          cases ha'
    · simp only [ModUnit.name] at ha
      rw [Parser.parse_global_loop, if_neg hterm, show p.token.type = TokenType.Private from hx]
      try dsimp only
      split
      · rename_i h1
        rw [hn] at h1
        cases h1
      · rename_i p1' h1
        rw [hn] at h1
        cases h1
        try dsimp only
        split
        · rename_i p2' ha'
          rw [ha] at ha'
          cases ha'
        · rename_i p2' ha'
          rw [ha] at ha'
          cases ha'
          try dsimp only
          try rfl
  | Static =>
    refine ⟨fun p2 ha => ?_, fun p2 ha => ?_⟩
    · simp only [ModUnit.name] at ha
      rw [Parser.parse_global_loop, if_neg hterm, show p.token.type = TokenType.Static from hx]
      try dsimp only
      split
      · rename_i h1
        rw [hn] at h1
        cases h1
      · rename_i p1' h1
        rw [hn] at h1
        cases h1
        try dsimp only
        split
        · rename_i p2' ha'
          rw [ha] at ha'
          cases ha'
          rfl
        · rename_i p2' ha'
          rw [ha] at ha'
          cases ha'
    · simp only [ModUnit.name] at ha
      rw [Parser.parse_global_loop, if_neg hterm, show p.token.type = TokenType.Static from hx]
      try dsimp only
      split
      · rename_i h1
        rw [hn] at h1
        cases h1
      · rename_i p1' h1
        rw [hn] at h1
        cases h1
        try dsimp only
        split
        · rename_i p2' ha'
          rw [ha] at ha'
          cases ha'
        · rename_i p2' ha'
          rw [ha] at ha'
          cases ha'
          try dsimp only
          try rfl
  | Inline =>
    refine ⟨fun p2 ha => ?_, fun p2 ha => ?_⟩
    · simp only [ModUnit.name] at ha
      rw [Parser.parse_global_loop, if_neg hterm, show p.token.type = TokenType.Inline from hx]
      try dsimp only
      split
      · rename_i h1
        rw [hn] at h1
        cases h1
      · rename_i p1' h1
        rw [hn] at h1
        cases h1
        try dsimp only
        split
        · rename_i p2' ha'
          rw [ha] at ha'
          cases ha'
          rfl
        · rename_i p2' ha'
          rw [ha] at ha'
          cases ha'
    · simp only [ModUnit.name] at ha
      rw [Parser.parse_global_loop, if_neg hterm, show p.token.type = TokenType.Inline from hx]
      try dsimp only
      split
      · rename_i h1
        rw [hn] at h1
        cases h1
      · rename_i p1' h1
        rw [hn] at h1
        cases h1
        try dsimp only
        split
        · rename_i p2' ha'
          rw [ha] at ha'
          cases ha'
        · rename_i p2' ha'
          rw [ha] at ha'
          cases ha'
          try dsimp only
          try rfl
  | Abstract =>
    refine ⟨fun p2 ha => ?_, fun p2 ha => ?_⟩
    · simp only [ModUnit.name] at ha
      rw [Parser.parse_global_loop, if_neg hterm, show p.token.type = TokenType.Abstract from hx]
      try dsimp only
      split
      · rename_i h1
        rw [hn] at h1
        cases h1
      · rename_i p1' h1
        rw [hn] at h1
        cases h1
        try dsimp only
        split
        · rename_i p2' ha'
          rw [ha] at ha'
          cases ha'
          rfl
        · rename_i p2' ha'
          rw [ha] at ha'
          cases ha'
    · simp only [ModUnit.name] at ha
      rw [Parser.parse_global_loop, if_neg hterm, show p.token.type = TokenType.Abstract from hx]
      try dsimp only
      split
      · rename_i h1
        rw [hn] at h1
        cases h1
      · rename_i p1' h1
        rw [hn] at h1
        cases h1
        try dsimp only
        split
        · rename_i p2' ha'
          rw [ha] at ha'
          cases ha'
        · rename_i p2' ha'
          rw [ha] at ha'
          cases ha'
          try dsimp only
          try rfl
  | Final =>
    refine ⟨fun p2 ha => ?_, fun p2 ha => ?_⟩
    · simp only [ModUnit.name] at ha
      rw [Parser.parse_global_loop, if_neg hterm, show p.token.type = TokenType.Final from hx]
      try dsimp only
      split
      · rename_i h1
        rw [hn] at h1
        cases h1
      · rename_i p1' h1
        rw [hn] at h1
        cases h1
        try dsimp only
        split
        · rename_i p2' ha'
          rw [ha] at ha'
          cases ha'
          rfl
        · rename_i p2' ha'
          rw [ha] at ha'
          cases ha'
    · simp only [ModUnit.name] at ha
      rw [Parser.parse_global_loop, if_neg hterm, show p.token.type = TokenType.Final from hx]
      try dsimp only
      split
      · rename_i h1
        rw [hn] at h1
        cases h1
      · rename_i p1' h1
        rw [hn] at h1
        cases h1
        try dsimp only
        split
        · rename_i p2' ha'
          rw [ha] at ha'
          cases ha'
        · rename_i p2' ha'
          rw [ha] at ha'
          cases ha'
          try dsimp only
          try rfl

theorem loop_external_next_none {p : Parser} {t : TokenType} (a : AttrHandler)
    (hterm : ¬ p.token.type = t) (hx : p.token.type = .External) (h0 : p.next = none) :
    p.parse_global_loop t a = .panicked := by
  rw [Parser.parse_global_loop, if_neg hterm, hx]
  try dsimp only
  split
  · rfl
  · rename_i p1 h1
    rw [h0] at h1
    cases h1

theorem loop_external_str {p p1 : Parser} {t : TokenType} (a : AttrHandler)
    (hterm : ¬ p.token.type = t) (hx : p.token.type = .External) (hn : p.next = some p1)
    (lk : ExternalLinkage) (hstr : p1.token.type = .String lk.specifier) :
    (p1.next = none → p.parse_global_loop t a = .panicked) ∧
    (∀ p2 p3, p1.next = some p2 → p2.assert_global_item_next "external" = .err p3 →
      p.parse_global_loop t a = .err p3) ∧
    (∀ p2 p3, p1.next = some p2 → p2.assert_global_item_next "external" = .ok p3 →
      p.parse_global_loop t a = p3.parse_global_loop t (a.add_attr (.External lk))) := by
  cases lk
  case C =>
    refine ⟨fun h0 => ?_, fun p2 p3 hn2 ha => ?_, fun p2 p3 hn2 ha => ?_⟩
    · rw [Parser.parse_global_loop, if_neg hterm, hx]
      try dsimp only
      split
      · rename_i h1
        simp only [hn] at h1
        cases h1
      · rename_i p1' h1
        rw [hn] at h1
        cases h1
        rw [hstr]
        try dsimp only
        rw [show ExternalLinkage.C.specifier = "C" from rfl, if_pos rfl]
        try dsimp only
        split
        · rfl
        · rename_i p2' h2
          rw [h0] at h2
          cases h2
    · rw [Parser.parse_global_loop, if_neg hterm, hx]
      try dsimp only
      split
      · rename_i h1
        simp only [hn] at h1
        cases h1
      · rename_i p1' h1
        rw [hn] at h1
        cases h1
        rw [hstr]
        try dsimp only
        rw [show ExternalLinkage.C.specifier = "C" from rfl, if_pos rfl]
        try dsimp only
        split
        · rename_i h2
          rw [hn2] at h2
          cases h2
        · rename_i p2' h2
          rw [hn2] at h2
          cases h2
          try dsimp only
          split
          · rename_i p3' ha'
            rw [ha] at ha'
            cases ha'
            rfl
          · rename_i p3' ha'
            rw [ha] at ha'
            cases ha'
    · rw [Parser.parse_global_loop, if_neg hterm, hx]
      try dsimp only
      split
      · rename_i h1
        simp only [hn] at h1
        cases h1
      · rename_i p1' h1
        rw [hn] at h1
        cases h1
        rw [hstr]
        try dsimp only
        rw [show ExternalLinkage.C.specifier = "C" from rfl, if_pos rfl]
        try dsimp only
        split
        · rename_i h2
          rw [hn2] at h2
          cases h2
        · rename_i p2' h2
          rw [hn2] at h2
          cases h2
          try dsimp only
          split
          · rename_i p3' ha'
            rw [ha] at ha'
            cases ha'
          · rename_i p3' ha'
            rw [ha] at ha'
            cases ha'
            try rfl
  case Snowball =>
    refine ⟨fun h0 => ?_, fun p2 p3 hn2 ha => ?_, fun p2 p3 hn2 ha => ?_⟩
    · rw [Parser.parse_global_loop, if_neg hterm, hx]
      try dsimp only
      split
      · rename_i h1
        simp only [hn] at h1
        cases h1
      · rename_i p1' h1
        rw [hn] at h1
        cases h1
        rw [hstr]
        try dsimp only
        rw [show ExternalLinkage.Snowball.specifier = "snowball" from rfl,
          if_neg (by decide), if_pos rfl]
        try dsimp only
        split
        · rfl
        · rename_i p2' h2
          rw [h0] at h2
          cases h2
    · rw [Parser.parse_global_loop, if_neg hterm, hx]
      try dsimp only
      split
      · rename_i h1
        simp only [hn] at h1
        cases h1
      · rename_i p1' h1
        rw [hn] at h1
        cases h1
        rw [hstr]
        try dsimp only
        rw [show ExternalLinkage.Snowball.specifier = "snowball" from rfl,
          if_neg (by decide), if_pos rfl]
        try dsimp only
        split
        · rename_i h2
          rw [hn2] at h2
          cases h2
        · rename_i p2' h2
          rw [hn2] at h2
          cases h2
          try dsimp only
          split
          · rename_i p3' ha'
            rw [ha] at ha'
            cases ha'
            rfl
          · rename_i p3' ha'
            rw [ha] at ha'
            cases ha'
    · rw [Parser.parse_global_loop, if_neg hterm, hx]
      try dsimp only
      split
      · rename_i h1
        simp only [hn] at h1
        cases h1
      · rename_i p1' h1
        rw [hn] at h1
        cases h1
        rw [hstr]
        try dsimp only
        rw [show ExternalLinkage.Snowball.specifier = "snowball" from rfl,
          if_neg (by decide), if_pos rfl]
        try dsimp only
        split
        · rename_i h2
          rw [hn2] at h2
          cases h2
        · rename_i p2' h2
          rw [hn2] at h2
          cases h2
          try dsimp only
          split
          · rename_i p3' ha'
            rw [ha] at ha'
            cases ha'
          · rename_i p3' ha'
            rw [ha] at ha'
            cases ha'
            try rfl
  case System =>
    refine ⟨fun h0 => ?_, fun p2 p3 hn2 ha => ?_, fun p2 p3 hn2 ha => ?_⟩
    · rw [Parser.parse_global_loop, if_neg hterm, hx]
      try dsimp only
      split
      · rename_i h1
        simp only [hn] at h1
        cases h1
      · rename_i p1' h1
        rw [hn] at h1
        cases h1
        rw [hstr]
        try dsimp only
        rw [show ExternalLinkage.System.specifier = "system" from rfl,
          if_neg (by decide), if_neg (by decide), if_pos rfl]
        try dsimp only
        split
        · rfl
        · rename_i p2' h2
          rw [h0] at h2
          cases h2
    · rw [Parser.parse_global_loop, if_neg hterm, hx]
      try dsimp only
      split
      · rename_i h1
        simp only [hn] at h1
        cases h1
      · rename_i p1' h1
        rw [hn] at h1
        cases h1
        rw [hstr]
        try dsimp only
        rw [show ExternalLinkage.System.specifier = "system" from rfl,
          if_neg (by decide), if_neg (by decide), if_pos rfl]
        try dsimp only
        split
        · rename_i h2
          rw [hn2] at h2
          cases h2
        · rename_i p2' h2
          rw [hn2] at h2
          cases h2
          try dsimp only
          split
          · rename_i p3' ha'
            rw [ha] at ha'
            cases ha'
            rfl
          · rename_i p3' ha'
            rw [ha] at ha'
            cases ha'
    · rw [Parser.parse_global_loop, if_neg hterm, hx]
      try dsimp only
      split
      · rename_i h1
        simp only [hn] at h1
        cases h1
      · rename_i p1' h1
        rw [hn] at h1
        cases h1
        rw [hstr]
        try dsimp only
        rw [show ExternalLinkage.System.specifier = "system" from rfl,
          if_neg (by decide), if_neg (by decide), if_pos rfl]
        try dsimp only
        split
        · rename_i h2
          rw [hn2] at h2
          cases h2
        · rename_i p2' h2
          rw [hn2] at h2
          cases h2
          try dsimp only
          split
          · rename_i p3' ha'
            rw [ha] at ha'
            cases ha'
          · rename_i p3' ha'
            rw [ha] at ha'
            cases ha'
            try rfl

theorem loop_external_invalid {p p1 : Parser} {t : TokenType} (a : AttrHandler)
    (hterm : ¬ p.token.type = t) (hx : p.token.type = .External) (hn : p.next = some p1)
    {s : String} (hstr : p1.token.type = .String s)
    (hC : s ≠ "C") (hS : s ≠ "snowball") (hY : s ≠ "system") :
    p.parse_global_loop t a =
      .err (p1.report_with_info (.InvalidExternalSpecifier s)
        { help := some "The external specifier must be one of the following: \x27C\x27, \x27snowball\x27, \x27system\x27",
          info := some "Not a valid external specifier!",
          note := some "External specifiers are used to specify the data that is being imported from an external source",
          see := some "https://snowball-lang.gitbook.io/docs/language-reference/external-specifier" }) := by
  rw [Parser.parse_global_loop, if_neg hterm, hx]
  try dsimp only
  split
  · rename_i h1
    rw [hn] at h1
    cases h1
  · rename_i p1' h1
    rw [hn] at h1
    cases h1
    rw [hstr]
    try dsimp only
    rw [if_neg hC, if_neg hS, if_neg hY]

theorem loop_external_nonstring {p p1 : Parser} {t : TokenType} (a : AttrHandler)
    (hterm : ¬ p.token.type = t) (hx : p.token.type = .External) (hn : p.next = some p1)
    (hnostr : ∀ s, p1.token.type ≠ .String s) :
    p.parse_global_loop t a =
      .err (p1.report_with_info (.ExpectedItem "external specifier" "external")
        { help := some "The external specifier must be a string literal",
          note := some "External specifiers are used to specify the data that is being imported from an external source",
          see := some "https://snowball-lang.gitbook.io/docs/language-reference/external-specifier" }) := by
  rw [Parser.parse_global_loop, if_neg hterm, hx]
  try dsimp only
  split
  · rename_i h1
    rw [hn] at h1
    cases h1
  · rename_i p1' h1
    rw [hn] at h1
    cases h1
    split
    · rename_i data hstr
      exact absurd hstr (hnostr data)
    · rfl

theorem SameRun.of_add {a1 a2 : AttrHandler} {x : AstAttrs} {o1 o2 : ParseOutcome}
    (h : SameRun (a1.add_attr x) (a2.add_attr x) o1 o2) : SameRun a1 a2 o1 o2 := by
  cases h with
  | ok p1 p2 d =>
    have e1 : (a1.add_attr x).attrs ++ d = a1.attrs ++ (x :: d) := by
      simp [AttrHandler.add_attr]
    have e2 : (a2.add_attr x).attrs ++ d = a2.attrs ++ (x :: d) := by
      simp [AttrHandler.add_attr]
    rw [e1, e2]
    exact SameRun.ok p1 p2 (x :: d)
  | err p1 p2 => exact SameRun.err p1 p2
  | panicked => exact SameRun.panicked

theorem sameCtor_of_sameRun {a1 a2 : AttrHandler} {o1 o2 : ParseOutcome}
    (h : SameRun a1 a2 o1 o2) : sameCtor o1 o2 := by
  cases h <;> trivial

theorem sameCtor_refl (o : ParseOutcome) : sameCtor o o := by
  cases o <;> trivial

theorem sameRun_ok_attrs {a1 a2 : AttrHandler} {o1 o2 : ParseOutcome}
    (h : SameRun a1 a2 o1 o2) {p1 p2 : Parser} {b1 b2 : AttrHandler}
    (h1 : o1 = .ok p1 b1) (h2 : o2 = .ok p2 b2) :
    ∃ d, b1 = ⟨a1.attrs ++ d⟩ ∧ b2 = ⟨a2.attrs ++ d⟩ := by
  cases h with
  | ok q1 q2 d =>
    cases h1
    cases h2
    exact ⟨d, rfl, rfl⟩
  | err q1 q2 => cases h1
  | panicked => cases h1

theorem loop_suffix_congr (t : TokenType) :
    ∀ (n : Nat) (p q : Parser) (a1 a2 : AttrHandler),
      p.tokens.length - p.token_index = n →
      p.tokens.drop p.token_index = q.tokens.drop q.token_index →
      q.token = p.token →
      SameRun a1 a2 (p.parse_global_loop t a1) (q.parse_global_loop t a2) := by
  intro n
  induction n using Nat.strong_induction_on with
  | _ n ih =>
  intro p q a1 a2 hm hd ht
  by_cases hterm : p.token.type = t
  · rw [loop_terminator p t a1 hterm, loop_terminator q t a2 (by rw [ht]; exact hterm)]
    have h0 := @SameRun.ok a1 a2 p q []
    simpa using h0
  · have hterm' : ¬ q.token.type = t := by rw [ht]; exact hterm
    cases htk : p.token.type with
    | EOF =>
      rw [loop_eof p t a1 hterm htk, loop_eof q t a2 hterm' (by rw [ht]; exact htk)]
      exact SameRun.err _ _
    | Fn =>
      rw [loop_default p t a1 hterm (by rw [htk]; simp) (by rw [htk]; simp)
          (by rw [htk]; simp) (by rw [htk]; simp) (by rw [htk]; simp)
          (by rw [htk]; simp) (by rw [htk]; simp) (by rw [htk]; simp),
        loop_default q t a2 hterm' (by rw [ht, htk]; simp) (by rw [ht, htk]; simp)
          (by rw [ht, htk]; simp) (by rw [ht, htk]; simp) (by rw [ht, htk]; simp)
          (by rw [ht, htk]; simp) (by rw [ht, htk]; simp) (by rw [ht, htk]; simp)]
      exact SameRun.err _ _
    | Struct =>
      rw [loop_default p t a1 hterm (by rw [htk]; simp) (by rw [htk]; simp)
          (by rw [htk]; simp) (by rw [htk]; simp) (by rw [htk]; simp)
          (by rw [htk]; simp) (by rw [htk]; simp) (by rw [htk]; simp),
        loop_default q t a2 hterm' (by rw [ht, htk]; simp) (by rw [ht, htk]; simp)
          (by rw [ht, htk]; simp) (by rw [ht, htk]; simp) (by rw [ht, htk]; simp)
          (by rw [ht, htk]; simp) (by rw [ht, htk]; simp) (by rw [ht, htk]; simp)]
      exact SameRun.err _ _
    | Enum =>
      rw [loop_default p t a1 hterm (by rw [htk]; simp) (by rw [htk]; simp)
          (by rw [htk]; simp) (by rw [htk]; simp) (by rw [htk]; simp)
          (by rw [htk]; simp) (by rw [htk]; simp) (by rw [htk]; simp),
        loop_default q t a2 hterm' (by rw [ht, htk]; simp) (by rw [ht, htk]; simp)
          (by rw [ht, htk]; simp) (by rw [ht, htk]; simp) (by rw [ht, htk]; simp)
          (by rw [ht, htk]; simp) (by rw [ht, htk]; simp) (by rw [ht, htk]; simp)]
      exact SameRun.err _ _
    | Class =>
      rw [loop_default p t a1 hterm (by rw [htk]; simp) (by rw [htk]; simp)
          (by rw [htk]; simp) (by rw [htk]; simp) (by rw [htk]; simp)
          (by rw [htk]; simp) (by rw [htk]; simp) (by rw [htk]; simp),
        loop_default q t a2 hterm' (by rw [ht, htk]; simp) (by rw [ht, htk]; simp)
          (by rw [ht, htk]; simp) (by rw [ht, htk]; simp) (by rw [ht, htk]; simp)
          (by rw [ht, htk]; simp) (by rw [ht, htk]; simp) (by rw [ht, htk]; simp)]
      exact SameRun.err _ _
    | Const =>
      rw [loop_default p t a1 hterm (by rw [htk]; simp) (by rw [htk]; simp)
          (by rw [htk]; simp) (by rw [htk]; simp) (by rw [htk]; simp)
          (by rw [htk]; simp) (by rw [htk]; simp) (by rw [htk]; simp),
        loop_default q t a2 hterm' (by rw [ht, htk]; simp) (by rw [ht, htk]; simp)
          (by rw [ht, htk]; simp) (by rw [ht, htk]; simp) (by rw [ht, htk]; simp)
          (by rw [ht, htk]; simp) (by rw [ht, htk]; simp) (by rw [ht, htk]; simp)]
      exact SameRun.err _ _
    | Interface =>
      rw [loop_default p t a1 hterm (by rw [htk]; simp) (by rw [htk]; simp)
          (by rw [htk]; simp) (by rw [htk]; simp) (by rw [htk]; simp)
          (by rw [htk]; simp) (by rw [htk]; simp) (by rw [htk]; simp),
        loop_default q t a2 hterm' (by rw [ht, htk]; simp) (by rw [ht, htk]; simp)
          (by rw [ht, htk]; simp) (by rw [ht, htk]; simp) (by rw [ht, htk]; simp)
          (by rw [ht, htk]; simp) (by rw [ht, htk]; simp) (by rw [ht, htk]; simp)]
      exact SameRun.err _ _
    | String s0 =>
      rw [loop_default p t a1 hterm (by rw [htk]; simp) (by rw [htk]; simp)
          (by rw [htk]; simp) (by rw [htk]; simp) (by rw [htk]; simp)
          (by rw [htk]; simp) (by rw [htk]; simp) (by rw [htk]; simp),
        loop_default q t a2 hterm' (by rw [ht, htk]; simp) (by rw [ht, htk]; simp)
          (by rw [ht, htk]; simp) (by rw [ht, htk]; simp) (by rw [ht, htk]; simp)
          (by rw [ht, htk]; simp) (by rw [ht, htk]; simp) (by rw [ht, htk]; simp)]
      exact SameRun.err _ _
    | Int n0 =>
      rw [loop_default p t a1 hterm (by rw [htk]; simp) (by rw [htk]; simp)
          (by rw [htk]; simp) (by rw [htk]; simp) (by rw [htk]; simp)
          (by rw [htk]; simp) (by rw [htk]; simp) (by rw [htk]; simp),
        loop_default q t a2 hterm' (by rw [ht, htk]; simp) (by rw [ht, htk]; simp)
          (by rw [ht, htk]; simp) (by rw [ht, htk]; simp) (by rw [ht, htk]; simp)
          (by rw [ht, htk]; simp) (by rw [ht, htk]; simp) (by rw [ht, htk]; simp)]
      exact SameRun.err _ _
    | Ident s0 =>
      rw [loop_default p t a1 hterm (by rw [htk]; simp) (by rw [htk]; simp)
          (by rw [htk]; simp) (by rw [htk]; simp) (by rw [htk]; simp)
          (by rw [htk]; simp) (by rw [htk]; simp) (by rw [htk]; simp),
        loop_default q t a2 hterm' (by rw [ht, htk]; simp) (by rw [ht, htk]; simp)
          (by rw [ht, htk]; simp) (by rw [ht, htk]; simp) (by rw [ht, htk]; simp)
          (by rw [ht, htk]; simp) (by rw [ht, htk]; simp) (by rw [ht, htk]; simp)]
      exact SameRun.err _ _
    | Public =>
      rcases hpn : p.next with _ | p1
      · have hq0 : q.next = none := by
          rw [next_eq_none_iff] at hpn ⊢
          have hlen := drop_length_eq hd
          omega
        rw [loop_plain_next_none ModUnit.Public (by intro lk h; cases h) a1 hterm
            (by rw [htk]; rfl) hpn,
          loop_plain_next_none ModUnit.Public (by intro lk h; cases h) a2 hterm'
            (by rw [ht, htk]; rfl) hq0]
        exact SameRun.panicked
      · obtain ⟨q1, hqn⟩ : ∃ q1, q.next = some q1 := by
          cases hqn : q.next with
          | none =>
            exfalso
            rw [next_eq_none_iff] at hqn
            obtain ⟨-, -, -, hplt, -⟩ := next_eq_some_fields hpn
            have hlen := drop_length_eq hd
            omega
          | some q1 => exact ⟨q1, rfl⟩
        obtain ⟨hd1, ht1, hlt1⟩ := next_some_congr hd hpn hqn
        have hps := loop_plain_step ModUnit.Public (by intro lk h; cases h) a1 hterm
          (by rw [htk]; rfl) hpn
        have hqs := loop_plain_step ModUnit.Public (by intro lk h; cases h) a2 hterm'
          (by rw [ht, htk]; rfl) hqn
        by_cases hst : p1.token.type.is_global_item_start = true
        · rw [hps.2 p1 (assert_of_start p1 _ hst),
            hqs.2 q1 (assert_of_start q1 _ (by rw [ht1]; exact hst))]
          exact SameRun.of_add
            (ih (p1.tokens.length - p1.token_index) (by omega) p1 q1 _ _ rfl hd1 ht1)
        · have hstf : p1.token.type.is_global_item_start = false := by simpa using hst
          rw [hps.1 _ (assert_of_not_start p1 _ hstf),
            hqs.1 _ (assert_of_not_start q1 _ (by rw [ht1]; exact hstf))]
          exact SameRun.err _ _
    | Private =>
      rcases hpn : p.next with _ | p1
      · have hq0 : q.next = none := by
          rw [next_eq_none_iff] at hpn ⊢
          have hlen := drop_length_eq hd
          omega
        rw [loop_plain_next_none ModUnit.Private (by intro lk h; cases h) a1 hterm
            (by rw [htk]; rfl) hpn,
          loop_plain_next_none ModUnit.Private (by intro lk h; cases h) a2 hterm'
            (by rw [ht, htk]; rfl) hq0]
        exact SameRun.panicked
      · obtain ⟨q1, hqn⟩ : ∃ q1, q.next = some q1 := by
          cases hqn : q.next with
          | none =>
            exfalso
            rw [next_eq_none_iff] at hqn
            obtain ⟨-, -, -, hplt, -⟩ := next_eq_some_fields hpn
            have hlen := drop_length_eq hd
            omega
          | some q1 => exact ⟨q1, rfl⟩
        obtain ⟨hd1, ht1, hlt1⟩ := next_some_congr hd hpn hqn
        have hps := loop_plain_step ModUnit.Private (by intro lk h; cases h) a1 hterm
          (by rw [htk]; rfl) hpn
        have hqs := loop_plain_step ModUnit.Private (by intro lk h; cases h) a2 hterm'
          (by rw [ht, htk]; rfl) hqn
        by_cases hst : p1.token.type.is_global_item_start = true
        · rw [hps.2 p1 (assert_of_start p1 _ hst),
            hqs.2 q1 (assert_of_start q1 _ (by rw [ht1]; exact hst))]
          exact SameRun.of_add
            (ih (p1.tokens.length - p1.token_index) (by omega) p1 q1 _ _ rfl hd1 ht1)
        · have hstf : p1.token.type.is_global_item_start = false := by simpa using hst
          rw [hps.1 _ (assert_of_not_start p1 _ hstf),
            hqs.1 _ (assert_of_not_start q1 _ (by rw [ht1]; exact hstf))]
          exact SameRun.err _ _
    | Static =>
      rcases hpn : p.next with _ | p1
      · have hq0 : q.next = none := by
          rw [next_eq_none_iff] at hpn ⊢
          have hlen := drop_length_eq hd
          omega
        rw [loop_plain_next_none ModUnit.Static (by intro lk h; cases h) a1 hterm
            (by rw [htk]; rfl) hpn,
          loop_plain_next_none ModUnit.Static (by intro lk h; cases h) a2 hterm'
            (by rw [ht, htk]; rfl) hq0]
        exact SameRun.panicked
      · obtain ⟨q1, hqn⟩ : ∃ q1, q.next = some q1 := by
          cases hqn : q.next with
          | none =>
            exfalso
            rw [next_eq_none_iff] at hqn
            obtain ⟨-, -, -, hplt, -⟩ := next_eq_some_fields hpn
            have hlen := drop_length_eq hd
            omega
          | some q1 => exact ⟨q1, rfl⟩
        obtain ⟨hd1, ht1, hlt1⟩ := next_some_congr hd hpn hqn
        have hps := loop_plain_step ModUnit.Static (by intro lk h; cases h) a1 hterm
          (by rw [htk]; rfl) hpn
        have hqs := loop_plain_step ModUnit.Static (by intro lk h; cases h) a2 hterm'
          (by rw [ht, htk]; rfl) hqn
        by_cases hst : p1.token.type.is_global_item_start = true
        · rw [hps.2 p1 (assert_of_start p1 _ hst),
            hqs.2 q1 (assert_of_start q1 _ (by rw [ht1]; exact hst))]
          exact SameRun.of_add
            (ih (p1.tokens.length - p1.token_index) (by omega) p1 q1 _ _ rfl hd1 ht1)
        · have hstf : p1.token.type.is_global_item_start = false := by simpa using hst
          rw [hps.1 _ (assert_of_not_start p1 _ hstf),
            hqs.1 _ (assert_of_not_start q1 _ (by rw [ht1]; exact hstf))]
          exact SameRun.err _ _
    | Inline =>
      rcases hpn : p.next with _ | p1
      · have hq0 : q.next = none := by
          rw [next_eq_none_iff] at hpn ⊢
          have hlen := drop_length_eq hd
          omega
        rw [loop_plain_next_none ModUnit.Inline (by intro lk h; cases h) a1 hterm
            (by rw [htk]; rfl) hpn,
          loop_plain_next_none ModUnit.Inline (by intro lk h; cases h) a2 hterm'
            (by rw [ht, htk]; rfl) hq0]
        exact SameRun.panicked
      · obtain ⟨q1, hqn⟩ : ∃ q1, q.next = some q1 := by
          cases hqn : q.next with
          | none =>
            exfalso
            rw [next_eq_none_iff] at hqn
            obtain ⟨-, -, -, hplt, -⟩ := next_eq_some_fields hpn
            have hlen := drop_length_eq hd
            omega
          | some q1 => exact ⟨q1, rfl⟩
        obtain ⟨hd1, ht1, hlt1⟩ := next_some_congr hd hpn hqn
        have hps := loop_plain_step ModUnit.Inline (by intro lk h; cases h) a1 hterm
          (by rw [htk]; rfl) hpn
        have hqs := loop_plain_step ModUnit.Inline (by intro lk h; cases h) a2 hterm'
          (by rw [ht, htk]; rfl) hqn
        by_cases hst : p1.token.type.is_global_item_start = true
        · rw [hps.2 p1 (assert_of_start p1 _ hst),
            hqs.2 q1 (assert_of_start q1 _ (by rw [ht1]; exact hst))]
          exact SameRun.of_add
            (ih (p1.tokens.length - p1.token_index) (by omega) p1 q1 _ _ rfl hd1 ht1)
        · have hstf : p1.token.type.is_global_item_start = false := by simpa using hst
          rw [hps.1 _ (assert_of_not_start p1 _ hstf),
            hqs.1 _ (assert_of_not_start q1 _ (by rw [ht1]; exact hstf))]
          exact SameRun.err _ _
    | Abstract =>
      rcases hpn : p.next with _ | p1
      · have hq0 : q.next = none := by
          rw [next_eq_none_iff] at hpn ⊢
          have hlen := drop_length_eq hd
          omega
        rw [loop_plain_next_none ModUnit.Abstract (by intro lk h; cases h) a1 hterm
            (by rw [htk]; rfl) hpn,
          loop_plain_next_none ModUnit.Abstract (by intro lk h; cases h) a2 hterm'
            (by rw [ht, htk]; rfl) hq0]
        exact SameRun.panicked
      · obtain ⟨q1, hqn⟩ : ∃ q1, q.next = some q1 := by
          cases hqn : q.next with
          | none =>
            exfalso
            rw [next_eq_none_iff] at hqn
            obtain ⟨-, -, -, hplt, -⟩ := next_eq_some_fields hpn
            have hlen := drop_length_eq hd
            omega
          | some q1 => exact ⟨q1, rfl⟩
        obtain ⟨hd1, ht1, hlt1⟩ := next_some_congr hd hpn hqn
        have hps := loop_plain_step ModUnit.Abstract (by intro lk h; cases h) a1 hterm
          (by rw [htk]; rfl) hpn
        have hqs := loop_plain_step ModUnit.Abstract (by intro lk h; cases h) a2 hterm'
          (by rw [ht, htk]; rfl) hqn
        by_cases hst : p1.token.type.is_global_item_start = true
        · rw [hps.2 p1 (assert_of_start p1 _ hst),
            hqs.2 q1 (assert_of_start q1 _ (by rw [ht1]; exact hst))]
          exact SameRun.of_add
            (ih (p1.tokens.length - p1.token_index) (by omega) p1 q1 _ _ rfl hd1 ht1)
        · have hstf : p1.token.type.is_global_item_start = false := by simpa using hst
          rw [hps.1 _ (assert_of_not_start p1 _ hstf),
            hqs.1 _ (assert_of_not_start q1 _ (by rw [ht1]; exact hstf))]
          exact SameRun.err _ _
    | Final =>
      rcases hpn : p.next with _ | p1
      · have hq0 : q.next = none := by
          rw [next_eq_none_iff] at hpn ⊢
          have hlen := drop_length_eq hd
          omega
        rw [loop_plain_next_none ModUnit.Final (by intro lk h; cases h) a1 hterm
            (by rw [htk]; rfl) hpn,
          loop_plain_next_none ModUnit.Final (by intro lk h; cases h) a2 hterm'
            (by rw [ht, htk]; rfl) hq0]
        exact SameRun.panicked
      · obtain ⟨q1, hqn⟩ : ∃ q1, q.next = some q1 := by
          cases hqn : q.next with
          | none =>
            exfalso
            rw [next_eq_none_iff] at hqn
            obtain ⟨-, -, -, hplt, -⟩ := next_eq_some_fields hpn
            have hlen := drop_length_eq hd
            omega
          | some q1 => exact ⟨q1, rfl⟩
        obtain ⟨hd1, ht1, hlt1⟩ := next_some_congr hd hpn hqn
        have hps := loop_plain_step ModUnit.Final (by intro lk h; cases h) a1 hterm
          (by rw [htk]; rfl) hpn
        have hqs := loop_plain_step ModUnit.Final (by intro lk h; cases h) a2 hterm'
          (by rw [ht, htk]; rfl) hqn
        by_cases hst : p1.token.type.is_global_item_start = true
        · rw [hps.2 p1 (assert_of_start p1 _ hst),
            hqs.2 q1 (assert_of_start q1 _ (by rw [ht1]; exact hst))]
          exact SameRun.of_add
            (ih (p1.tokens.length - p1.token_index) (by omega) p1 q1 _ _ rfl hd1 ht1)
        · have hstf : p1.token.type.is_global_item_start = false := by simpa using hst
          rw [hps.1 _ (assert_of_not_start p1 _ hstf),
            hqs.1 _ (assert_of_not_start q1 _ (by rw [ht1]; exact hstf))]
          exact SameRun.err _ _
    | External =>
      rcases hpn : p.next with _ | p1
      · have hq0 : q.next = none := by
          rw [next_eq_none_iff] at hpn ⊢
          have hlen := drop_length_eq hd
          omega
        rw [loop_external_next_none a1 hterm htk hpn,
          loop_external_next_none a2 hterm' (by rw [ht]; exact htk) hq0]
        exact SameRun.panicked
      · obtain ⟨q1, hqn⟩ : ∃ q1, q.next = some q1 := by
          cases hqn : q.next with
          | none =>
            exfalso
            rw [next_eq_none_iff] at hqn
            obtain ⟨-, -, -, hplt, -⟩ := next_eq_some_fields hpn
            have hlen := drop_length_eq hd
            omega
          | some q1 => exact ⟨q1, rfl⟩
        obtain ⟨hd1, ht1, hlt1⟩ := next_some_congr hd hpn hqn
        by_cases hstr0 : ∃ s, p1.token.type = TokenType.String s
        · obtain ⟨s, hs⟩ := hstr0
          by_cases hC : s = "C"
          · subst hC
            have hps := loop_external_str a1 hterm htk hpn ExternalLinkage.C hs
            have hqs := loop_external_str a2 hterm' (by rw [ht]; exact htk) hqn
              ExternalLinkage.C (by rw [ht1]; exact hs)
            rcases hp2n : p1.next with _ | p2
            · have hq20 : q1.next = none := by
                rw [next_eq_none_iff] at hp2n ⊢
                have hlen := drop_length_eq hd1
                omega
              rw [hps.1 hp2n, hqs.1 hq20]
              exact SameRun.panicked
            · obtain ⟨q2, hq2n⟩ : ∃ q2, q1.next = some q2 := by
                cases hq2 : q1.next with
                | none =>
                  exfalso
                  rw [next_eq_none_iff] at hq2
                  obtain ⟨-, -, -, hplt2, -⟩ := next_eq_some_fields hp2n
                  have hlen := drop_length_eq hd1
                  omega
                | some q2 => exact ⟨q2, rfl⟩
              obtain ⟨hd2, ht2, hlt2⟩ := next_some_congr hd1 hp2n hq2n
              by_cases hst : p2.token.type.is_global_item_start = true
              · rw [hps.2.2 p2 p2 hp2n (assert_of_start p2 _ hst),
                  hqs.2.2 q2 q2 hq2n (assert_of_start q2 _ (by rw [ht2]; exact hst))]
                exact SameRun.of_add
                  (ih (p2.tokens.length - p2.token_index) (by omega) p2 q2 _ _ rfl hd2 ht2)
              · have hstf : p2.token.type.is_global_item_start = false := by simpa using hst
                rw [hps.2.1 p2 _ hp2n (assert_of_not_start p2 _ hstf),
                  hqs.2.1 q2 _ hq2n (assert_of_not_start q2 _ (by rw [ht2]; exact hstf))]
                exact SameRun.err _ _
          · by_cases hS : s = "snowball"
            · subst hS
              have hps := loop_external_str a1 hterm htk hpn ExternalLinkage.Snowball hs
              have hqs := loop_external_str a2 hterm' (by rw [ht]; exact htk) hqn
                ExternalLinkage.Snowball (by rw [ht1]; exact hs)
              rcases hp2n : p1.next with _ | p2
              · have hq20 : q1.next = none := by
                  rw [next_eq_none_iff] at hp2n ⊢
                  have hlen := drop_length_eq hd1
                  omega
                rw [hps.1 hp2n, hqs.1 hq20]
                exact SameRun.panicked
              · obtain ⟨q2, hq2n⟩ : ∃ q2, q1.next = some q2 := by
                  cases hq2 : q1.next with
                  | none =>
                    exfalso
                    rw [next_eq_none_iff] at hq2
                    obtain ⟨-, -, -, hplt2, -⟩ := next_eq_some_fields hp2n
                    have hlen := drop_length_eq hd1
                    omega
                  | some q2 => exact ⟨q2, rfl⟩
                obtain ⟨hd2, ht2, hlt2⟩ := next_some_congr hd1 hp2n hq2n
                by_cases hst : p2.token.type.is_global_item_start = true
                · rw [hps.2.2 p2 p2 hp2n (assert_of_start p2 _ hst),
                    hqs.2.2 q2 q2 hq2n (assert_of_start q2 _ (by rw [ht2]; exact hst))]
                  exact SameRun.of_add
                    (ih (p2.tokens.length - p2.token_index) (by omega) p2 q2 _ _ rfl hd2 ht2)
                · have hstf : p2.token.type.is_global_item_start = false := by simpa using hst
                  rw [hps.2.1 p2 _ hp2n (assert_of_not_start p2 _ hstf),
                    hqs.2.1 q2 _ hq2n (assert_of_not_start q2 _ (by rw [ht2]; exact hstf))]
                  exact SameRun.err _ _
            · by_cases hY : s = "system"
              · subst hY
                have hps := loop_external_str a1 hterm htk hpn ExternalLinkage.System hs
                have hqs := loop_external_str a2 hterm' (by rw [ht]; exact htk) hqn
                  ExternalLinkage.System (by rw [ht1]; exact hs)
                rcases hp2n : p1.next with _ | p2
                · have hq20 : q1.next = none := by
                    rw [next_eq_none_iff] at hp2n ⊢
                    have hlen := drop_length_eq hd1
                    omega
                  rw [hps.1 hp2n, hqs.1 hq20]
                  exact SameRun.panicked
                · obtain ⟨q2, hq2n⟩ : ∃ q2, q1.next = some q2 := by
                    cases hq2 : q1.next with
                    | none =>
                      exfalso
                      rw [next_eq_none_iff] at hq2
                      obtain ⟨-, -, -, hplt2, -⟩ := next_eq_some_fields hp2n
                      have hlen := drop_length_eq hd1
                      omega
                    | some q2 => exact ⟨q2, rfl⟩
                  obtain ⟨hd2, ht2, hlt2⟩ := next_some_congr hd1 hp2n hq2n
                  by_cases hst : p2.token.type.is_global_item_start = true
                  · rw [hps.2.2 p2 p2 hp2n (assert_of_start p2 _ hst),
                      hqs.2.2 q2 q2 hq2n (assert_of_start q2 _ (by rw [ht2]; exact hst))]
                    exact SameRun.of_add
                      (ih (p2.tokens.length - p2.token_index) (by omega) p2 q2 _ _ rfl hd2 ht2)
                  · have hstf : p2.token.type.is_global_item_start = false := by simpa using hst
                    rw [hps.2.1 p2 _ hp2n (assert_of_not_start p2 _ hstf),
                      hqs.2.1 q2 _ hq2n (assert_of_not_start q2 _ (by rw [ht2]; exact hstf))]
                    exact SameRun.err _ _
              · rw [loop_external_invalid a1 hterm htk hpn hs hC hS hY,
                  loop_external_invalid a2 hterm' (by rw [ht]; exact htk) hqn
                    (by rw [ht1]; exact hs) hC hS hY]
                exact SameRun.err _ _
        · have hnostr : ∀ s, p1.token.type ≠ TokenType.String s :=
            fun s hcon => hstr0 ⟨s, hcon⟩
          rw [loop_external_nonstring a1 hterm htk hpn hnostr,
            loop_external_nonstring a2 hterm' (by rw [ht]; exact htk) hqn
              (fun s hcon => hnostr s (ht1 ▸ hcon))]
          exact SameRun.err _ _

/-- C2 counterexample: with modifier `public`, item start `fn` and
terminator `EOF`, the sequence `[public, fn, EOF]` does not succeed — the
loop has no dispatch for `fn` and reports `UnexpectedToken "fn"`; and
`[public, fn]` parsed with terminator `Fn` (the modifier immediately
followed by the terminator token) succeeds rather than failing with
`ExpectedItem`. -/
theorem modifier_item_claim_false :
    ((⟨[⟨.Public, "public", 0⟩, ⟨.Fn, "fn", 1⟩, ⟨.EOF, "", 2⟩], 0,
        ⟨.Public, "public", 0⟩, []⟩ : Parser).parse_global .EOF =
      .err ⟨[⟨.Public, "public", 0⟩, ⟨.Fn, "fn", 1⟩, ⟨.EOF, "", 2⟩], 1, ⟨.Fn, "fn", 1⟩,
        [CompileError.new (.UnexpectedToken "fn") 1]⟩) ∧
    ((⟨[⟨.Public, "public", 0⟩, ⟨.Fn, "fn", 1⟩], 0, ⟨.Public, "public", 0⟩, []⟩ :
      Parser).parse_global .Fn =
      .ok ⟨[⟨.Public, "public", 0⟩, ⟨.Fn, "fn", 1⟩], 1, ⟨.Fn, "fn", 1⟩, []⟩
        ⟨[.Privacy true]⟩) := by
  constructor <;>
    simp [Parser.parse_global, Parser.parse_global_loop, Parser.next,
      Parser.assert_global_item_next, Parser.report, Parser.report_with_info,
      AttrHandler.new, AttrHandler.add_attr, CompileError.new, CompileError.with_info]

/-- C2 (amended): for every accepted modifier unit M (a plain modifier
keyword, or `external` with a valid specifier string), `parse_global` on
M's tokens followed by a legal global-item starter I, with terminator
I's type (the handoff point — the shown core has no item dispatch of its
own), succeeds; and on M's tokens followed by a single token T that is
not a legal global-item starter, with terminator T's type, it fails with
`ExpectedItem("global item", M's name)` recorded at T's location. -/
theorem modifier_item_handoff (u : ModUnit) (ts1 : List Token) (hu : UnitTokens u ts1) :
    (∀ (I : Token) (rest : List Token), I.type.is_global_item_start = true →
      ∃ p p' a', Parser.new (ts1 ++ I :: rest) = some p ∧
        p.parse_global I.type = .ok p' a') ∧
    (∀ T : Token, T.type.is_global_item_start = false →
      ∃ p p', Parser.new (ts1 ++ [T]) = some p ∧
        p.parse_global T.type = .err p' ∧
        ∃ i, p'.reports = [(CompileError.new (.ExpectedItem "global item" u.name)
          T.location).with_info i]) := by
  constructor
  · intro I rest hstart
    obtain ⟨tk, tl, rfl, htk⟩ := unitTokens_shape hu
    have hnew : Parser.new ((tk :: tl) ++ I :: rest) =
        some ⟨(tk :: tl) ++ I :: rest, 0, tk, []⟩ := rfl
    obtain ⟨hat, hrep⟩ := new_atTokens hnew
    by_cases hk : I.type = u.keyword
    · refine ⟨⟨(tk :: tl) ++ I :: rest, 0, tk, []⟩, ⟨(tk :: tl) ++ I :: rest, 0, tk, []⟩,
        AttrHandler.new, hnew, ?_⟩
      unfold Parser.parse_global
      exact loop_terminator _ _ _ (by show tk.type = I.type; rw [htk, hk])
    · obtain ⟨p'', hat'', hts'', hrep'', htok'', h5, h6⟩ :=
        loop_unit_step hu hat hk AttrHandler.new
      refine ⟨⟨(tk :: tl) ++ I :: rest, 0, tk, []⟩, p'', AttrHandler.new.add_attr u.attr,
        hnew, ?_⟩
      unfold Parser.parse_global
      rw [h5 hstart, loop_terminator _ _ _ (by rw [htok''])]
  · intro T hTst
    obtain ⟨tk, tl, rfl, htk⟩ := unitTokens_shape hu
    have hnew : Parser.new ((tk :: tl) ++ [T]) =
        some ⟨(tk :: tl) ++ [T], 0, tk, []⟩ := rfl
    obtain ⟨hat, hrep⟩ := new_atTokens hnew
    have hk : T.type ≠ u.keyword := by
      intro h
      rw [h, keyword_is_start u] at hTst
      cases hTst
    obtain ⟨p'', hat'', hts'', hrep'', htok'', h5, h6⟩ :=
      loop_unit_step hu hat hk AttrHandler.new
    refine ⟨⟨(tk :: tl) ++ [T], 0, tk, []⟩,
      p''.report_with_info (.ExpectedItem "global item" u.name)
        { help := some "There are only a few items that can be declared at the global scope",
          see := some "https://snowball-lang.gitbook.io/docs/language-reference/global-scope" },
      hnew, ?_, ?_⟩
    · unfold Parser.parse_global
      exact h6 hTst
    · refine ⟨⟨some "There are only a few items that can be declared at the global scope",
        none, none,
        some "https://snowball-lang.gitbook.io/docs/language-reference/global-scope"⟩, ?_⟩
      rw [report_with_info_reports, hrep'', htok'']
      rfl

theorem modifier_item_handoff_witness :
    (∃ p p' a', Parser.new [⟨.Static, "static", 0⟩, ⟨.Fn, "fn", 1⟩] = some p ∧
      p.parse_global .Fn = .ok p' a') ∧
    (∃ p p', Parser.new [⟨.Static, "static", 0⟩, ⟨.Int 42, "42", 1⟩] = some p ∧
      p.parse_global (.Int 42) = .err p' ∧
      ∃ i, p'.reports = [(CompileError.new (.ExpectedItem "global item" "static")
        1).with_info i]) := by
  have h := modifier_item_handoff .Static [⟨.Static, "static", 0⟩]
    ⟨⟨.Static, "static", 0⟩, rfl, rfl⟩
  exact ⟨h.1 ⟨.Fn, "fn", 1⟩ [] (by decide), h.2 ⟨.Int 42, "42", 1⟩ (by decide)⟩

set_option maxRecDepth 2000 in
/-- C8 counterexample: with the bare modifier keyword `external` in the
multiset and a string-literal item start, the two orderings
`[external, public, "C", fn]` and `[public, external, "C", fn]` (terminator
`Fn`) produce different outcomes — the first fails, the second succeeds;
and with terminator `public`, the orderings `[public, static, fn]` and
`[static, public, fn]` both succeed but accumulate different attribute
multisets (none versus `{Static}`). -/
theorem modifier_order_claim_false :
    ((⟨[⟨.External, "external", 0⟩, ⟨.Public, "public", 1⟩, ⟨.String "C", "C", 2⟩,
        ⟨.Fn, "fn", 3⟩], 0, ⟨.External, "external", 0⟩, []⟩ : Parser).parse_global .Fn =
      .err ⟨[⟨.External, "external", 0⟩, ⟨.Public, "public", 1⟩, ⟨.String "C", "C", 2⟩,
        ⟨.Fn, "fn", 3⟩], 1, ⟨.Public, "public", 1⟩,
        [(CompileError.new (.ExpectedItem "external specifier" "external") 1).with_info
          ⟨some "The external specifier must be a string literal", none,
            some "External specifiers are used to specify the data that is being imported from an external source",
            some "https://snowball-lang.gitbook.io/docs/language-reference/external-specifier"⟩]⟩) ∧
    ((⟨[⟨.Public, "public", 0⟩, ⟨.External, "external", 1⟩, ⟨.String "C", "C", 2⟩,
        ⟨.Fn, "fn", 3⟩], 0, ⟨.Public, "public", 0⟩, []⟩ : Parser).parse_global .Fn =
      .ok ⟨[⟨.Public, "public", 0⟩, ⟨.External, "external", 1⟩, ⟨.String "C", "C", 2⟩,
        ⟨.Fn, "fn", 3⟩], 3, ⟨.Fn, "fn", 3⟩, []⟩
        ⟨[.Privacy true, .External .C]⟩) ∧
    ((⟨[⟨.Public, "public", 0⟩, ⟨.Static, "static", 1⟩, ⟨.Fn, "fn", 2⟩], 0,
        ⟨.Public, "public", 0⟩, []⟩ : Parser).parse_global .Public =
      .ok ⟨[⟨.Public, "public", 0⟩, ⟨.Static, "static", 1⟩, ⟨.Fn, "fn", 2⟩], 0,
        ⟨.Public, "public", 0⟩, []⟩ ⟨[]⟩) ∧
    ((⟨[⟨.Static, "static", 0⟩, ⟨.Public, "public", 1⟩, ⟨.Fn, "fn", 2⟩], 0,
        ⟨.Static, "static", 0⟩, []⟩ : Parser).parse_global .Public =
      .ok ⟨[⟨.Static, "static", 0⟩, ⟨.Public, "public", 1⟩, ⟨.Fn, "fn", 2⟩], 1,
        ⟨.Public, "public", 1⟩, []⟩ ⟨[.Static]⟩) := by
  refine ⟨?_, ?_, ?_, ?_⟩
  · simp [Parser.parse_global, Parser.parse_global_loop, Parser.next,
      Parser.assert_global_item_next, Parser.report, Parser.report_with_info,
      AttrHandler.new, AttrHandler.add_attr, CompileError.new, CompileError.with_info]
  · rw [Parser.parse_global, Parser.parse_global_loop]
    simp [Parser.next, Parser.assert_global_item_next, AttrHandler.new,
      AttrHandler.add_attr]
    have h := (@loop_external_str
        ⟨[⟨.Public, "public", 0⟩, ⟨.External, "external", 1⟩, ⟨.String "C", "C", 2⟩,
          ⟨.Fn, "fn", 3⟩], 1, ⟨.External, "external", 1⟩, []⟩
        ⟨[⟨.Public, "public", 0⟩, ⟨.External, "external", 1⟩, ⟨.String "C", "C", 2⟩,
          ⟨.Fn, "fn", 3⟩], 2, ⟨.String "C", "C", 2⟩, []⟩
        TokenType.Fn ⟨[AstAttrs.Privacy true]⟩ (by decide) rfl (by decide)
        ExternalLinkage.C rfl).2.2
        ⟨[⟨.Public, "public", 0⟩, ⟨.External, "external", 1⟩, ⟨.String "C", "C", 2⟩,
          ⟨.Fn, "fn", 3⟩], 3, ⟨.Fn, "fn", 3⟩, []⟩
        ⟨[⟨.Public, "public", 0⟩, ⟨.External, "external", 1⟩, ⟨.String "C", "C", 2⟩,
          ⟨.Fn, "fn", 3⟩], 3, ⟨.Fn, "fn", 3⟩, []⟩
        (by decide) (by decide)
    rw [h]
    rw [loop_terminator _ _ _ rfl]
    decide
  · simp [Parser.parse_global, Parser.parse_global_loop, Parser.next,
      Parser.assert_global_item_next, Parser.report, Parser.report_with_info,
      AttrHandler.new, AttrHandler.add_attr, CompileError.new, CompileError.with_info]
  · simp [Parser.parse_global, Parser.parse_global_loop, Parser.next,
      Parser.assert_global_item_next, Parser.report, Parser.report_with_info,
      AttrHandler.new, AttrHandler.add_attr, CompileError.new, CompileError.with_info]

/-- C8 (amended): for every multiset of modifier units (external paired
with its valid specifier string) and any two orderings of it before the
same item-start token and remaining tokens, `parse_global` produces the
same success/failure outcome on both orderings; and when the terminator
is not one of the prefix's modifier keywords, the two accumulated
attribute multisets are equal. -/
theorem modifier_order_commutes (us1 us2 : List ModUnit) (hperm : us1.Perm us2)
    (ts1 ts2 : List Token) (h1 : PrefixTokens us1 ts1) (h2 : PrefixTokens us2 ts2)
    (I : Token) (rest : List Token) (t : TokenType) (p1 p2 : Parser)
    (hp1 : Parser.new (ts1 ++ I :: rest) = some p1)
    (hp2 : Parser.new (ts2 ++ I :: rest) = some p2) :
    sameCtor (p1.parse_global t) (p2.parse_global t) ∧
    ((∀ u ∈ us1, t ≠ u.keyword) →
      ∀ q1 b1 q2 b2, p1.parse_global t = .ok q1 b1 → p2.parse_global t = .ok q2 b2 →
        Multiset.ofList b1.attrs = Multiset.ofList b2.attrs) := by
  obtain ⟨hat1, hrep1⟩ := new_atTokens hp1
  obtain ⟨hat2, hrep2⟩ := new_atTokens hp2
  by_cases hterm_mem : ∃ u ∈ us1, t = u.keyword
  · obtain ⟨o1p, o1a, ho1⟩ := loop_prefix_early h1 p1 AttrHandler.new hterm_mem hat1
    have hterm_mem2 : ∃ u ∈ us2, t = u.keyword := by
      obtain ⟨u, hu, he⟩ := hterm_mem
      exact ⟨u, hperm.mem_iff.mp hu, he⟩
    obtain ⟨o2p, o2a, ho2⟩ := loop_prefix_early h2 p2 AttrHandler.new hterm_mem2 hat2
    constructor
    · unfold Parser.parse_global
      rw [ho1, ho2]
      trivial
    · intro hniff q1 b1 q2 b2 hok1 hok2
      exfalso
      obtain ⟨u, hu, he⟩ := hterm_mem
      exact hniff u hu he
  · have hts1 : ∀ u ∈ us1, t ≠ u.keyword := fun u hu he => hterm_mem ⟨u, hu, he⟩
    have hts2 : ∀ u ∈ us2, t ≠ u.keyword := fun u hu he =>
      hterm_mem ⟨u, hperm.mem_iff.mpr hu, he⟩
    by_cases hI : I.type.is_global_item_start = true
    · obtain ⟨p1', g1, -, -, -, g5, -⟩ := loop_prefix_run h1 p1 AttrHandler.new hts1 hat1
      obtain ⟨p2', k1, -, -, -, k5, -⟩ := loop_prefix_run h2 p2 AttrHandler.new hts2 hat2
      have hd12 : p1'.tokens.drop p1'.token_index = p2'.tokens.drop p2'.token_index := by
        rw [g1.1, k1.1]
      have ht12 : p2'.token = p1'.token := by
        rw [atTokens_token k1, atTokens_token g1]
      have hcongr := loop_suffix_congr t (p1'.tokens.length - p1'.token_index) p1' p2'
        ⟨AttrHandler.new.attrs ++ us1.map ModUnit.attr⟩
        ⟨AttrHandler.new.attrs ++ us2.map ModUnit.attr⟩ rfl hd12 ht12
      constructor
      · unfold Parser.parse_global
        rw [g5 hI, k5 hI]
        exact sameCtor_of_sameRun hcongr
      · intro hniff q1 b1 q2 b2 hok1 hok2
        unfold Parser.parse_global at hok1 hok2
        rw [g5 hI] at hok1
        rw [k5 hI] at hok2
        obtain ⟨d, hb1, hb2⟩ := sameRun_ok_attrs hcongr hok1 hok2
        rw [hb1, hb2]
        apply Multiset.coe_eq_coe.mpr
        simp only [AttrHandler.new, List.nil_append]
        exact (hperm.map ModUnit.attr).append_right d
    · cases us1 with
      | nil =>
        have h2nil : us2 = [] := hperm.symm.eq_nil
        subst h2nil
        cases h1
        cases h2
        rw [hp1] at hp2
        cases hp2
        exact ⟨sameCtor_refl _, fun hniff q1 b1 q2 b2 e1 e2 => by
          rw [e1] at e2
          cases e2
          rfl⟩
      | cons u0 us1' =>
        have hIf : I.type.is_global_item_start = false := by simpa using hI
        obtain ⟨p1', g1, -, -, -, -, g6⟩ := loop_prefix_run h1 p1 AttrHandler.new hts1 hat1
        obtain ⟨p2', k1, -, -, -, -, k6⟩ := loop_prefix_run h2 p2 AttrHandler.new hts2 hat2
        have hl1 : (u0 :: us1').getLast? = some ((u0 :: us1').getLast (by simp)) :=
          List.getLast?_eq_getLast _ _
        have h2ne : us2 ≠ [] := by
          intro h
          rw [h] at hperm
          cases hperm.eq_nil
        obtain ⟨v0, us2', rfl⟩ : ∃ v0 us2', us2 = v0 :: us2' := by
          cases us2 with
          | nil => exact absurd rfl h2ne
          | cons v0 us2' => exact ⟨v0, us2', rfl⟩
        have hl2 : (v0 :: us2').getLast? = some ((v0 :: us2').getLast (by simp)) :=
          List.getLast?_eq_getLast _ _
        constructor
        · unfold Parser.parse_global
          rw [g6 hIf _ hl1, k6 hIf _ hl2]
          trivial
        · intro hniff q1 b1 q2 b2 hok1 hok2
          unfold Parser.parse_global at hok1
          rw [g6 hIf _ hl1] at hok1
          cases hok1

theorem modifier_order_commutes_witness :
    (sameCtor
      ((⟨[⟨.Public, "public", 0⟩, ⟨.Static, "static", 1⟩, ⟨.Fn, "fn", 2⟩], 0,
          ⟨.Public, "public", 0⟩, []⟩ : Parser).parse_global .Fn)
      ((⟨[⟨.Static, "static", 1⟩, ⟨.Public, "public", 0⟩, ⟨.Fn, "fn", 2⟩], 0,
          ⟨.Static, "static", 1⟩, []⟩ : Parser).parse_global .Fn)) ∧
    Multiset.ofList [AstAttrs.Privacy true, AstAttrs.Static] =
      Multiset.ofList [AstAttrs.Static, AstAttrs.Privacy true] := by
  have h := modifier_order_commutes [.Public, .Static] [.Static, .Public]
    (List.Perm.swap _ _ _)
    ([⟨.Public, "public", 0⟩] ++ ([⟨.Static, "static", 1⟩] ++ []))
    ([⟨.Static, "static", 1⟩] ++ ([⟨.Public, "public", 0⟩] ++ []))
    (PrefixTokens.cons ⟨⟨.Public, "public", 0⟩, rfl, rfl⟩
      (PrefixTokens.cons ⟨⟨.Static, "static", 1⟩, rfl, rfl⟩ PrefixTokens.nil))
    (PrefixTokens.cons ⟨⟨.Static, "static", 1⟩, rfl, rfl⟩
      (PrefixTokens.cons ⟨⟨.Public, "public", 0⟩, rfl, rfl⟩ PrefixTokens.nil))
    ⟨.Fn, "fn", 2⟩ [] .Fn _ _ rfl rfl
  refine ⟨h.1, ?_⟩
  refine h.2 (by decide) ⟨[⟨.Public, "public", 0⟩, ⟨.Static, "static", 1⟩, ⟨.Fn, "fn", 2⟩],
      2, ⟨.Fn, "fn", 2⟩, []⟩ _ ⟨[⟨.Static, "static", 1⟩, ⟨.Public, "public", 0⟩,
      ⟨.Fn, "fn", 2⟩], 2, ⟨.Fn, "fn", 2⟩, []⟩ _ ?_ ?_ <;>
    simp [Parser.parse_global, Parser.parse_global_loop, Parser.next,
      Parser.assert_global_item_next, AttrHandler.new, AttrHandler.add_attr]
